import Mathlib

set_option maxRecDepth 10000

/-!
Verification development for the OpenShift resource-accounting scripts
(`SKRYPTY/ns_resource_report.py`, `SKRYPTY/limitpython.py`,
`SKRYPTY/namespacelimitsreq.py`, `SKRYPTY/node_auditor.py`).

Numbers are modelled as rationals (the scripts compute with Python floats;
all laws stated here are exact laws of the underlying arithmetic).
Python strings are modelled as Lean `String`s, with the string logic carried
out on the underlying `List Char`.
-/

/-! ### Python string and number primitives -/

/-- Python whitespace characters (the ASCII ones recognised by `str.split()`
and `str.strip()`). -/
def isPySpace (c : Char) : Bool :=
  c == ' ' || c == '\t' || c == '\n' || c == '\x0b' || c == '\x0c' || c == '\r'

/-- Model of Python `str.strip()`: drop whitespace from both ends. -/
def stripL (l : List Char) : List Char :=
  ((l.dropWhile isPySpace).reverse.dropWhile isPySpace).reverse

/-- Model of Python `str.split()` with no argument: split on runs of
whitespace, dropping empty fields. -/
def pySplitWs (l : List Char) : List (List Char) :=
  (l.foldr (fun c acc =>
    if isPySpace c then [] :: acc
    else match acc with
      | [] => [[c]]
      | w :: ws => (c :: w) :: ws) [[]]).filter (fun w => decide (w ≠ []))

/-- Value of a list of decimal digit characters. -/
def digitsToNat (l : List Char) : ℕ :=
  l.foldl (fun a c => a * 10 + (c.toNat - 48)) 0

/-- Model of Python `float(...)` on an unsigned numeral: digits with an
optional single dot (`"12"`, `"12.5"`, `"12."`, `".5"`). `none` models the
`ValueError` raised on any other input. (Exponent forms, `inf`/`nan` and
surrounding whitespace, which Python's `float` also accepts, do not occur in
cluster quantity strings and are modelled as parse failures.) -/
def pyFloatCore (l : List Char) : Option ℚ :=
  let ip := l.takeWhile Char.isDigit
  let rest := l.dropWhile Char.isDigit
  match rest with
  | [] => if ip = [] then none else some (digitsToNat ip : ℚ)
  | c :: fp =>
    if c = '.' ∧ fp.all Char.isDigit = true ∧ (ip ≠ [] ∨ fp ≠ []) then
      some ((digitsToNat ip : ℚ) + (digitsToNat fp : ℚ) / (10 : ℚ) ^ fp.length)
    else none

/-- Model of Python `float(...)` including an optional leading sign. -/
def pyFloatL : List Char → Option ℚ
  | [] => none
  | c :: rest =>
    if c = '-' then (pyFloatCore rest).map (fun q => -q)
    else if c = '+' then pyFloatCore rest
    else pyFloatCore (c :: rest)

/-- Model of Python `str.endswith`. -/
def endsWithL (l suf : List Char) : Bool := decide (suf <:+ l)

/-- One pass over a memory-multiplier table (the
`for unit, mult in MEMORY_MULTIPLIERS.items(): if temp.endswith(unit): ...`
loop shared by the scripts).  On the first suffix match the numeric prefix is
parsed and scaled; a failed `float` parse returns `0.0` in the source, which
equals `0 * mult`, so the prefix value is taken with default `0`. -/
def memLoop (temp : List Char) : List (List Char × ℚ) → Option ℚ
  | [] => none
  | (unit, mult) :: rest =>
    if endsWithL temp unit then
      some ((pyFloatL (temp.take (temp.length - unit.length))).getD 0 * mult)
    else memLoop temp rest

/-! ### Data model

Raw cluster objects, as far as the scripts read them.  A missing JSON field
is modelled by the same default the scripts use (`.get(..., '')`), namely the
empty string. -/

/-- One container's resource strings
(`resources.{requests,limits}.{cpu,memory}`). -/
structure Container where
  cpu_req : String := ""
  mem_req : String := ""
  cpu_lim : String := ""
  mem_lim : String := ""
deriving DecidableEq

/-- One pod, as far as the scripts read it (`status.phase`, `spec.nodeName`,
`spec.containers`; init containers are not read by any script). -/
structure Pod where
  phase : String := ""
  nodeName : String := ""
  containers : List Container := []
deriving DecidableEq

/-- One workload object (`kind`, `metadata.name`, `spec.replicas`,
`spec.template.spec.containers`). -/
structure Workload where
  kind : String
  name : String
  replicas : Int
  containers : List Container
deriving DecidableEq

/-- Function `convert_cpu_to_m` — textually identical in `ns_resource_report.py`,
`limitpython.py`, `namespacelimitsreq.py` and `limitsreq.py`:
a trailing `m` means millicores, otherwise the whole string is cores × 1000;
an unparseable number yields `0.0` (here `getD 0`, and `0 * 1000 = 0`). -/
def convert_cpu_to_m (s : String) : ℚ :=
  if s.data = [] then 0
  else if endsWithL s.data ['m'] then (pyFloatL s.data.dropLast).getD 0
  else (pyFloatL s.data).getD 0 * 1000

namespace NsResourceReport

/-- Table `MEMORY_MULTIPLIERS` of `ns_resource_report.py` (also of
`node_auditor.py`, `namespacelimitsreq.py`, `node_capacity_reporter.py`):
binary units plus the `i`-less variants, in insertion order. -/
def MEMORY_MULTIPLIERS : List (List Char × ℚ) :=
  [ (['K','i'], 1/1024), (['M','i'], 1), (['G','i'], 1024), (['T','i'], 1024*1024)
  , (['K'], 1/1024), (['M'], 1), (['G'], 1024), (['T'], 1024*1024) ]

/-- Function `convert_memory_to_mib` of `ns_resource_report.py`: every `'i'` is
removed (`value_str.replace('i', '')`), the multiplier table is scanned for a
suffix match, and a bare number is taken as bytes and divided by `2^20`
(an unparseable bare number yields `0.0`, and `0 / 2^20 = 0`). -/
def convert_memory_to_mib (s : String) : ℚ :=
  if s.data = [] then 0
  else
    match memLoop (s.data.filter (fun c => decide (c ≠ 'i'))) MEMORY_MULTIPLIERS with
    | some v => v
    | none => (pyFloatL s.data).getD 0 / (1024 * 1024)

end NsResourceReport

namespace LimitPython

/-- Table `MEMORY_MULTIPLIERS` of `limitpython.py`: only the binary units. -/
def MEMORY_MULTIPLIERS : List (List Char × ℚ) :=
  [ (['K','i'], 1/1024), (['M','i'], 1), (['G','i'], 1024), (['T','i'], 1024*1024) ]

/-- Model of Python `str.replace(c, r)` for a one-character pattern. -/
def replaceChar (l : List Char) (c : Char) (r : List Char) : List Char :=
  (l.map (fun x => if x = c then r else [x])).flatten

/-- Function `convert_memory_to_mib` of `limitpython.py`: scan the binary units on
the original string; failing that, rewrite a trailing `G`/`M`/`K` (note: not
`T`) to its binary form via `str.replace` and scan again; failing that, the
(possibly rewritten) string is taken as a bare MiB number. -/
def convert_memory_to_mib (s : String) : ℚ :=
  if s.data = [] then 0
  else
    match memLoop s.data MEMORY_MULTIPLIERS with
    | some v => v
    | none =>
      let l2 :=
        if endsWithL s.data ['G'] then replaceChar s.data 'G' ['G','i']
        else if endsWithL s.data ['M'] then replaceChar s.data 'M' ['M','i']
        else if endsWithL s.data ['K'] then replaceChar s.data 'K' ['K','i']
        else s.data
      match memLoop l2 MEMORY_MULTIPLIERS with
      | some v => v
      | none => (pyFloatL l2).getD 0

end LimitPython

namespace NsResourceReport

/-- The dictionary returned by `get_running_pods_resources` in
`ns_resource_report.py`. -/
structure NsTotals where
  pods : ℕ
  cpu_req_m : ℚ
  cpu_lim_m : ℚ
  mem_req_mib : ℚ
  mem_lim_mib : ℚ
  no_req_pods : ℕ
  error : Option String
deriving DecidableEq

/-- Outcome of the `oc get pods ... -o json` call made by
`get_running_pods_resources`: nonzero exit status (with the captured stderr),
output that fails `json.loads`, or a parsed pod list (`items`). -/
inductive FetchResult where
  | failure (stderr : String)
  | badJson
  | ok (items : List Pod)

/-- Body of the per-pod loop of `get_running_pods_resources`: count the pod,
add every regular container's converted requests/limits to the running
totals, and count the pod as request-less when no container had a truthy
(non-empty) cpu or memory request string. -/
def addPod (acc : NsTotals) (pod : Pod) : NsTotals :=
  let pod_has_req := pod.containers.any (fun c => decide (c.cpu_req ≠ "" ∨ c.mem_req ≠ ""))
  { pods := acc.pods + 1
  , cpu_req_m := acc.cpu_req_m + (pod.containers.map (fun c => convert_cpu_to_m c.cpu_req)).sum
  , cpu_lim_m := acc.cpu_lim_m + (pod.containers.map (fun c => convert_cpu_to_m c.cpu_lim)).sum
  , mem_req_mib := acc.mem_req_mib + (pod.containers.map (fun c => convert_memory_to_mib c.mem_req)).sum
  , mem_lim_mib := acc.mem_lim_mib + (pod.containers.map (fun c => convert_memory_to_mib c.mem_lim)).sum
  , no_req_pods := acc.no_req_pods + (if pod_has_req then 0 else 1)
  , error := acc.error }

/-- Function `get_running_pods_resources` of `ns_resource_report.py`: on a failed
fetch, a record with all numeric fields `0` and `error` set to the stripped
stderr (resp. the fixed JSON-decode message); on success, the fold of
`addPod` over the Running pods, with `error = None`. -/
def get_running_pods_resources : FetchResult → NsTotals
  | .failure stderr => ⟨0, 0, 0, 0, 0, 0, some (String.mk (stripL stderr.data))⟩
  | .badJson => ⟨0, 0, 0, 0, 0, 0, some "blad parsowania JSON"⟩
  | .ok items => items.foldl addPod ⟨0, 0, 0, 0, 0, 0, none⟩

/-- Python truthiness of `d.get('error')`: `None` and the empty string are
falsy, any non-empty message is truthy. -/
def errTruthy (d : NsTotals) : Bool :=
  match d.error with
  | none => false
  | some s => decide (s ≠ "")

/-- List `valid_data` of `generate_report`:
`[d for _, d in ns_data.items() if not d.get('error')]`. -/
def valid_data (ns_data : List (String × NsTotals)) : List NsTotals :=
  (ns_data.map Prod.snd).filter (fun d => !errTruthy d)

/-- Sum `grand_pods` of `generate_report`. -/
def grand_pods (ns_data : List (String × NsTotals)) : ℕ :=
  ((valid_data ns_data).map (fun d => d.pods)).sum

/-- Sum `grand_cpu_req` of `generate_report`. -/
def grand_cpu_req (ns_data : List (String × NsTotals)) : ℚ :=
  ((valid_data ns_data).map (fun d => d.cpu_req_m)).sum

/-- Sum `grand_cpu_lim` of `generate_report`. -/
def grand_cpu_lim (ns_data : List (String × NsTotals)) : ℚ :=
  ((valid_data ns_data).map (fun d => d.cpu_lim_m)).sum

/-- Sum `grand_mem_req` of `generate_report`. -/
def grand_mem_req (ns_data : List (String × NsTotals)) : ℚ :=
  ((valid_data ns_data).map (fun d => d.mem_req_mib)).sum

/-- Sum `grand_mem_lim` of `generate_report`. -/
def grand_mem_lim (ns_data : List (String × NsTotals)) : ℚ :=
  ((valid_data ns_data).map (fun d => d.mem_lim_mib)).sum

/-- Sum `grand_no_req` of `generate_report`. -/
def grand_no_req (ns_data : List (String × NsTotals)) : ℕ :=
  ((valid_data ns_data).map (fun d => d.no_req_pods)).sum

/-- The warnings section of `generate_report`:
`[(ns, d['error']) for ns, d in ns_data.items() if d.get('error')]`. -/
def report_errors (ns_data : List (String × NsTotals)) : List (String × String) :=
  ns_data.filterMap (fun p => if errTruthy p.2 then some (p.1, p.2.error.getD "") else none)

/-- One row of the per-namespace table of `generate_report`: either an error
marker row or a data row. -/
inductive ReportRow where
  | errRow (ns : String) (msg : String)
  | dataRow (ns : String) (d : NsTotals)
deriving DecidableEq

/-- The per-namespace rows of `generate_report`'s table.  The source first
sorts `ns_data.items()` by the chosen key; sorting only permutes the rows, so
it is left out here and the rows are produced in input order. -/
def report_rows (ns_data : List (String × NsTotals)) : List ReportRow :=
  ns_data.map (fun p =>
    if errTruthy p.2 then ReportRow.errRow p.1 (p.2.error.getD "") else ReportRow.dataRow p.1 p.2)

/-- Outcome of the `oc adm top pods` call made by `get_top_pods`: nonzero
exit status, or captured stdout, given as its list of lines
(`stdout.strip().splitlines()`). -/
inductive TopResult where
  | failure
  | output (lines : List String)

/-- Body of the per-line loop of `get_top_pods` on the running state
(cpu sum, memory sum, number of parsed lines): a line whose whitespace-split
has fewer than three fields is skipped (`continue`); otherwise fields 1 and 2
are converted and added and the parsed-line counter is incremented. -/
def topStep (acc : ℚ × ℚ × ℕ) (line : String) : ℚ × ℚ × ℕ :=
  match pySplitWs line.data with
  | _ :: cpu :: mem :: _ =>
    (acc.1 + convert_cpu_to_m (String.mk cpu),
     acc.2.1 + convert_memory_to_mib (String.mk mem),
     acc.2.2 + 1)
  | _ => acc

/-- Function `get_top_pods` of `ns_resource_report.py`: `None` on a failed call;
otherwise the lines are folded with `topStep`, and `None` is returned when no
line at all was counted (`parsed == 0`). -/
def get_top_pods : TopResult → Option (ℚ × ℚ)
  | .failure => none
  | .output lines =>
    let acc := lines.foldl topStep (0, 0, 0)
    if acc.2.2 = 0 then none else some (acc.1, acc.2.1)

/-- The lines of a `top pods` snapshot that `get_top_pods` counts as valid
(at least three whitespace-separated fields), paired as (cpu field, memory
field). -/
def top_valid_lines (lines : List String) : List (String × String) :=
  lines.filterMap (fun line =>
    match pySplitWs line.data with
    | _ :: cpu :: mem :: _ => some (String.mk cpu, String.mk mem)
    | _ => none)

end NsResourceReport

namespace LimitPython

/-- Function `pod_cpu_request_m` of `generate_resource_report` in `limitpython.py`:
sum of the converted cpu requests of one pod template's containers. -/
def pod_cpu_request_m (cs : List Container) : ℚ :=
  (cs.map (fun c => convert_cpu_to_m c.cpu_req)).sum

/-- Function `pod_cpu_limit_m` of `generate_resource_report`. -/
def pod_cpu_limit_m (cs : List Container) : ℚ :=
  (cs.map (fun c => convert_cpu_to_m c.cpu_lim)).sum

/-- Function `pod_mem_request_mb` of `generate_resource_report`. -/
def pod_mem_request_mb (cs : List Container) : ℚ :=
  (cs.map (fun c => convert_memory_to_mib c.mem_req)).sum

/-- Function `pod_mem_limit_mb` of `generate_resource_report`. -/
def pod_mem_limit_mb (cs : List Container) : ℚ :=
  (cs.map (fun c => convert_memory_to_mib c.mem_lim)).sum

/-- The state built by `generate_resource_report` in `limitpython.py`: the
four namespace totals, plus the names of the DaemonSets it announced as
skipped (the `[INFO] Pomijam DaemonSet/...` messages). -/
structure LpReport where
  total_cpu_request_m : ℚ
  total_cpu_limit_m : ℚ
  total_mem_request_mb : ℚ
  total_mem_limit_mb : ℚ
  skipped : List String
deriving DecidableEq

/-- Body of the per-item loop of `generate_resource_report`: a DaemonSet is
skipped (and announced); an item with `spec.replicas` ≤ 0 (including the
default 0 for a missing field) is skipped silently; otherwise the pod
template sums, multiplied by the replica count, are added to the totals. -/
def lpStep (acc : LpReport) (item : Workload) : LpReport :=
  if item.kind = "DaemonSet" then { acc with skipped := acc.skipped ++ [item.name] }
  else if item.replicas ≤ 0 then acc
  else
    { acc with
      total_cpu_request_m := acc.total_cpu_request_m + pod_cpu_request_m item.containers * (item.replicas : ℚ)
    , total_cpu_limit_m := acc.total_cpu_limit_m + pod_cpu_limit_m item.containers * (item.replicas : ℚ)
    , total_mem_request_mb := acc.total_mem_request_mb + pod_mem_request_mb item.containers * (item.replicas : ℚ)
    , total_mem_limit_mb := acc.total_mem_limit_mb + pod_mem_limit_mb item.containers * (item.replicas : ℚ) }

/-- Function `generate_resource_report` of `limitpython.py`, as a function of the
fetched workload items (the final unit conversion and printing of the totals
is rendering and not modelled). -/
def generate_resource_report (items : List Workload) : LpReport :=
  items.foldl lpStep ⟨0, 0, 0, 0, []⟩

end LimitPython

namespace NodeAuditor

/-- Table `MEMORY_MULTIPLIERS` of `node_auditor.py` — the same eight-entry table
as in `ns_resource_report.py`. -/
def MEMORY_MULTIPLIERS : List (List Char × ℚ) := NsResourceReport.MEMORY_MULTIPLIERS

/-- Function `convert_memory_to_mib` of `node_auditor.py` (textually identical in
`namespacelimitsreq.py` and `node_capacity_reporter.py`): every `'i'` is
removed, the multiplier table is scanned for a suffix match, and a bare
number is taken directly as MiB (an unparseable bare number yields `0.0`). -/
def convert_memory_to_mib (s : String) : ℚ :=
  if s.data = [] then 0
  else
    match memLoop (s.data.filter (fun c => decide (c ≠ 'i'))) MEMORY_MULTIPLIERS with
    | some v => v
    | none => (pyFloatL s.data).getD 0

/-- One node, as far as `node_auditor.py` reads it (`metadata.name`,
`status.capacity.memory`, `status.allocatable.memory`; a missing memory
field defaults to `'0Mi'` at the call site). -/
structure NodeInfo where
  name : String
  capacity : String
  allocatable : String
deriving DecidableEq

/-- One entry of the `node_metrics` dictionary of `node_auditor.py`. -/
structure NodeMetrics where
  capacity_mib : ℚ
  allocatable_mib : ℚ
  requested_mib : ℚ
deriving DecidableEq

/-- Python dict insertion (`node_metrics[name] = v`) on an association list:
overwrite in place if the key exists, else append. -/
def dictInsert (m : List (String × NodeMetrics)) (k : String) (v : NodeMetrics) :
    List (String × NodeMetrics) :=
  if m.any (fun p => p.1 == k) then
    m.map (fun p => if p.1 = k then (k, v) else p)
  else m ++ [(k, v)]

/-- Function `get_nodes_data` of `node_auditor.py`: one `node_metrics` entry per
fetched node, with converted capacity/allocatable memory and
`requested_mib = 0.0`. -/
def get_nodes_data (nodes : List NodeInfo) : List (String × NodeMetrics) :=
  nodes.foldl
    (fun m node =>
      dictInsert m node.name
        ⟨convert_memory_to_mib node.capacity, convert_memory_to_mib node.allocatable, 0⟩)
    []

/-- Function `pod_total_mem_request_mib` of `get_pods_requests`: sum of the converted
container memory requests of one pod. -/
def pod_total_mem_request_mib (pod : Pod) : ℚ :=
  (pod.containers.map (fun c => convert_memory_to_mib c.mem_req)).sum

/-- Add `add` to the `requested_mib` of the entry with key `name`
(`node_metrics[node_name]['requested_mib'] += ...`). -/
def bumpRequested (m : List (String × NodeMetrics)) (name : String) (add : ℚ) :
    List (String × NodeMetrics) :=
  m.map (fun p =>
    if p.1 = name then (p.1, { p.2 with requested_mib := p.2.requested_mib + add }) else p)

/-- Body of the per-pod loop of `get_pods_requests` in `node_auditor.py`:
pods whose phase is not Running/Pending are skipped; a pod with a truthy
(non-empty) `spec.nodeName` that is a key of `node_metrics` adds its memory
requests to that node; otherwise the dictionary is unchanged (pods on an
unknown node are only counted for a diagnostic message, pods with no
assigned node are ignored). -/
def paStep (m : List (String × NodeMetrics)) (pod : Pod) : List (String × NodeMetrics) :=
  if pod.phase = "Running" ∨ pod.phase = "Pending" then
    if pod.nodeName ≠ "" ∧ (m.any (fun p => p.1 == pod.nodeName)) = true then
      bumpRequested m pod.nodeName (pod_total_mem_request_mib pod)
    else m
  else m

/-- Function `get_pods_requests` of `node_auditor.py`. -/
def get_pods_requests (node_metrics : List (String × NodeMetrics)) (pods : List Pod) :
    List (String × NodeMetrics) :=
  pods.foldl paStep node_metrics

/-- One row of `generate_full_node_report`'s table, at MiB precision (the
source additionally divides by a display-unit divisor and rounds to two
decimals for printing, which is rendering and not modelled). -/
structure NodeRow where
  node_name : String
  allocatable_mib : ℚ
  requested_mib : ℚ
  free_reserve_mib : ℚ
  usage_percent : ℚ
deriving DecidableEq

/-- Function `generate_full_node_report` of `node_auditor.py`: fetch the nodes, fold
the pods' memory requests onto them, then derive per node the free reserve
`allocatable - requested` and the usage percentage
(`requested / allocatable * 100` when `allocatable > 0`, else `0.0`). -/
def generate_full_node_report (nodes : List NodeInfo) (pods : List Pod) : List NodeRow :=
  let node_metrics := get_pods_requests (get_nodes_data nodes) pods
  node_metrics.map (fun p =>
    { node_name := p.1
    , allocatable_mib := p.2.allocatable_mib
    , requested_mib := p.2.requested_mib
    , free_reserve_mib := p.2.allocatable_mib - p.2.requested_mib
    , usage_percent :=
        if p.2.allocatable_mib > (0 : ℚ) then p.2.requested_mib / p.2.allocatable_mib * 100 else 0 })

/-- Whether `get_pods_requests` attributes pod `p` to the node named `name`:
the pod's phase is Running or Pending and its (non-empty) `spec.nodeName`
equals `name`. -/
def countedOn (name : String) (p : Pod) : Prop :=
  (p.phase = "Running" ∨ p.phase = "Pending") ∧ p.nodeName ≠ "" ∧ p.nodeName = name

instance (name : String) (p : Pod) : Decidable (countedOn name p) := by
  unfold countedOn; infer_instance

/-- The sum, over the pods attributed to the node named `name`, of their
converted container memory requests — the committed memory the specification
assigns to a node. -/
def committedSum (name : String) (pods : List Pod) : ℚ :=
  ((pods.filter (fun p => decide (countedOn name p))).map pod_total_mem_request_mib).sum

end NodeAuditor

namespace NamespaceLimitsReq

/-- Function `convert_memory_to_mib` of `namespacelimitsreq.py` — textually identical
to the one in `node_auditor.py`. -/
def convert_memory_to_mib (s : String) : ℚ := NodeAuditor.convert_memory_to_mib s

/-- Function `pod_cpu_request_m` of `generate_deployment_report` in
`namespacelimitsreq.py`. -/
def pod_cpu_request_m (cs : List Container) : ℚ :=
  (cs.map (fun c => convert_cpu_to_m c.cpu_req)).sum

/-- Function `pod_cpu_limit_m` of `generate_deployment_report`. -/
def pod_cpu_limit_m (cs : List Container) : ℚ :=
  (cs.map (fun c => convert_cpu_to_m c.cpu_lim)).sum

/-- Function `pod_mem_request_mb` of `generate_deployment_report`. -/
def pod_mem_request_mb (cs : List Container) : ℚ :=
  (cs.map (fun c => convert_memory_to_mib c.mem_req)).sum

/-- Function `pod_mem_limit_mb` of `generate_deployment_report`. -/
def pod_mem_limit_mb (cs : List Container) : ℚ :=
  (cs.map (fun c => convert_memory_to_mib c.mem_lim)).sum

/-- One `report_data` row of `generate_deployment_report`, at
millicore/MiB precision (the source divides by 1000/1024 and rounds for
display; the `current_*` values modelled here are the ones it also adds to
the namespace totals). -/
structure WlRow where
  kind : String
  name : String
  replicas : Int
  current_cpu_req_m : ℚ
  current_cpu_lim_m : ℚ
  current_mem_req_mb : ℚ
  current_mem_lim_mb : ℚ
deriving DecidableEq

/-- The state built by `generate_deployment_report` in
`namespacelimitsreq.py`: the per-workload rows and the namespace totals. -/
structure NlReport where
  report_data : List WlRow
  total_cpu_req_m : ℚ
  total_cpu_lim_m : ℚ
  total_mem_req_mb : ℚ
  total_mem_lim_mb : ℚ
  total_replicas : Int
deriving DecidableEq

/-- Body of the per-item loop of `generate_deployment_report`: every item —
with no kind or replica-count filter — gets a row with its pod sums
multiplied by `spec.replicas` (default 0), and the same products are added
to the namespace totals. -/
def nlStep (acc : NlReport) (item : Workload) : NlReport :=
  let cur_cpu_req := pod_cpu_request_m item.containers * (item.replicas : ℚ)
  let cur_cpu_lim := pod_cpu_limit_m item.containers * (item.replicas : ℚ)
  let cur_mem_req := pod_mem_request_mb item.containers * (item.replicas : ℚ)
  let cur_mem_lim := pod_mem_limit_mb item.containers * (item.replicas : ℚ)
  { report_data := acc.report_data ++
      [⟨item.kind, item.name, item.replicas, cur_cpu_req, cur_cpu_lim, cur_mem_req, cur_mem_lim⟩]
  , total_cpu_req_m := acc.total_cpu_req_m + cur_cpu_req
  , total_cpu_lim_m := acc.total_cpu_lim_m + cur_cpu_lim
  , total_mem_req_mb := acc.total_mem_req_mb + cur_mem_req
  , total_mem_lim_mb := acc.total_mem_lim_mb + cur_mem_lim
  , total_replicas := acc.total_replicas + item.replicas }

/-- Function `generate_deployment_report` of `namespacelimitsreq.py`, as a function
of the fetched Deployment/DeploymentConfig items. -/
def generate_deployment_report (items : List Workload) : NlReport :=
  items.foldl nlStep ⟨[], 0, 0, 0, 0, 0⟩

end NamespaceLimitsReq

/-! ### Per-item characterisations used in the statements

These definitions express, per workload item, what one loop iteration of the
corresponding report contributes; the fold lemmas below prove that the
reports equal their accumulation. -/

namespace LimitPython

/-- Contribution of one item to `total_cpu_request_m` in
`generate_resource_report`: zero for a DaemonSet or a non-positive replica
count, otherwise the pod sum times the replica count. -/
def lpContribCpuReq (it : Workload) : ℚ :=
  if it.kind = "DaemonSet" ∨ it.replicas ≤ 0 then 0
  else pod_cpu_request_m it.containers * (it.replicas : ℚ)

/-- Contribution of one item to `total_cpu_limit_m`. -/
def lpContribCpuLim (it : Workload) : ℚ :=
  if it.kind = "DaemonSet" ∨ it.replicas ≤ 0 then 0
  else pod_cpu_limit_m it.containers * (it.replicas : ℚ)

/-- Contribution of one item to `total_mem_request_mb`. -/
def lpContribMemReq (it : Workload) : ℚ :=
  if it.kind = "DaemonSet" ∨ it.replicas ≤ 0 then 0
  else pod_mem_request_mb it.containers * (it.replicas : ℚ)

/-- Contribution of one item to `total_mem_limit_mb`. -/
def lpContribMemLim (it : Workload) : ℚ :=
  if it.kind = "DaemonSet" ∨ it.replicas ≤ 0 then 0
  else pod_mem_limit_mb it.containers * (it.replicas : ℚ)

/-- The names of the DaemonSets `generate_resource_report` announces as
skipped, in input order. -/
def lpSkippedNames (items : List Workload) : List String :=
  (items.filter (fun it => decide (it.kind = "DaemonSet"))).map (fun it => it.name)

end LimitPython

namespace NamespaceLimitsReq

/-- The row `generate_deployment_report` appends for one item. -/
def nlRowOf (it : Workload) : WlRow :=
  ⟨it.kind, it.name, it.replicas,
   pod_cpu_request_m it.containers * (it.replicas : ℚ),
   pod_cpu_limit_m it.containers * (it.replicas : ℚ),
   pod_mem_request_mb it.containers * (it.replicas : ℚ),
   pod_mem_limit_mb it.containers * (it.replicas : ℚ)⟩

end NamespaceLimitsReq

/-! ### Numerals -/

/-- Predicate: `s` is an unsigned decimal numeral: all characters are digits or a dot,
and the modelled `float` parser accepts it. -/
def IsNumeral (s : String) : Prop :=
  (∀ c ∈ s.data, c.isDigit = true ∨ c = '.') ∧ (pyFloatCore s.data).isSome = true

instance (s : String) : Decidable (IsNumeral s) := by
  unfold IsNumeral; infer_instance

/-- The numeric value of a numeral. -/
def numVal (s : String) : ℚ := (pyFloatCore s.data).getD 0

/-! ### General lemmas about the primitives -/

theorem pyFloatCore_nil : pyFloatCore [] = none := rfl

theorem pyFloatCore_nonneg {l : List Char} {q : ℚ} (h : pyFloatCore l = some q) : 0 ≤ q := by
  simp only [pyFloatCore] at h
  split at h
  · split at h
    · exact absurd h (by simp)
    · simp only [Option.some.injEq] at h
      exact h ▸ Nat.cast_nonneg _
  · split at h
    · simp only [Option.some.injEq] at h
      refine h ▸ add_nonneg (Nat.cast_nonneg _) (div_nonneg (Nat.cast_nonneg _) ?_)
      exact pow_nonneg (by norm_num) _
    · exact absurd h (by simp)

theorem pyFloatCore_none_of_bad {l : List Char} {c : Char} (hc : c ∈ l)
    (h1 : c.isDigit = false) (h2 : c ≠ '.') : pyFloatCore l = none := by
  have hsplit : l.takeWhile Char.isDigit ++ l.dropWhile Char.isDigit = l :=
    List.takeWhile_append_dropWhile _ _
  have hcr : c ∈ l.dropWhile Char.isDigit := by
    rcases (List.mem_append.mp (hsplit ▸ hc)) with h | h
    · exact absurd (List.mem_takeWhile_imp h) (by simp [h1])
    · exact h
  simp only [pyFloatCore]
  split
  · next heq => rw [heq] at hcr; exact absurd hcr (List.not_mem_nil c)
  · next d fp heq =>
    rw [heq] at hcr
    rcases List.mem_cons.mp hcr with rfl | hfp
    · split
      · next hcond => exact absurd hcond.1 h2
      · rfl
    · split
      · next hcond =>
        have := List.all_eq_true.mp hcond.2.1 c hfp
        exact absurd this (by simp [h1])
      · rfl

theorem pyFloatL_eq_core {l : List Char} (h : ∀ c ∈ l, c.isDigit = true ∨ c = '.') :
    pyFloatL l = pyFloatCore l := by
  match l with
  | [] => rfl
  | c :: rest =>
    have hc := h c (List.mem_cons_self c rest)
    have h1 : c ≠ '-' := by
      intro he; rw [he] at hc
      rcases hc with h | h
      · exact absurd h (by decide)
      · exact absurd h (by decide)
    have h2 : c ≠ '+' := by
      intro he; rw [he] at hc
      rcases hc with h | h
      · exact absurd h (by decide)
      · exact absurd h (by decide)
    simp [pyFloatL, h1, h2]

theorem pyFloatL_nonneg {l : List Char} (h : '-' ∉ l) : 0 ≤ (pyFloatL l).getD 0 := by
  match l with
  | [] => simp [pyFloatL]
  | c :: rest =>
    have h1 : c ≠ '-' := fun hc => h (hc ▸ List.mem_cons_self c rest)
    rw [pyFloatL, if_neg h1]
    split
    · cases hcore : pyFloatCore rest with
      | none => simp
      | some q => simpa using pyFloatCore_nonneg hcore
    · cases hcore : pyFloatCore (c :: rest) with
      | none => simp
      | some q => simpa using pyFloatCore_nonneg hcore

theorem numeral_data_ne_nil {s : String} (h : IsNumeral s) : s.data ≠ [] := by
  intro hnil
  have := h.2
  rw [hnil, pyFloatCore_nil] at this
  simp at this

theorem pyFloatL_numeral {s : String} (h : IsNumeral s) :
    pyFloatL s.data = some (numVal s) := by
  rw [pyFloatL_eq_core h.1]
  cases hcore : pyFloatCore s.data with
  | none => have h2 := h.2; rw [hcore] at h2; simp at h2
  | some q => simp [numVal, hcore]

theorem clean_not_mem {l : List Char} (h : ∀ c ∈ l, c.isDigit = true ∨ c = '.')
    {x : Char} (h1 : x.isDigit = false) (h2 : x ≠ '.') : x ∉ l := by
  intro hx
  rcases h x hx with hd | rfl
  · rw [h1] at hd; cases hd
  · exact h2 rfl

theorem endsWithL_false_of_getLast {l suf : List Char} {a b : Char}
    (hl : l.getLast? = some a) (hs : suf.getLast? = some b) (hne : b ≠ a) :
    endsWithL l suf = false := by
  unfold endsWithL
  rw [decide_eq_false_iff_not]
  rintro ⟨t, rfl⟩
  rw [List.getLast?_append_of_ne_nil, hs] at hl
  · exact hne (Option.some.inj hl)
  · intro hnil; rw [hnil] at hs; simp at hs

theorem endsWithL_false_of_mem {l suf : List Char} {c : Char}
    (hc : c ∈ suf) (hnc : c ∉ l) : endsWithL l suf = false := by
  unfold endsWithL
  rw [decide_eq_false_iff_not]
  intro hsuf
  exact hnc (hsuf.subset hc)

theorem endsWithL_append_self (l suf : List Char) : endsWithL (l ++ suf) suf = true := by
  unfold endsWithL
  exact decide_eq_true (List.suffix_append l suf)

theorem take_concat1 {l : List Char} {a : Char} :
    (l ++ [a]).take ((l ++ [a]).length - 1) = l := by
  have : (l ++ [a]).length - 1 = l.length := by simp
  rw [this, List.take_left]

theorem take_concat2 {l : List Char} {a b : Char} :
    (l ++ [a, b]).take ((l ++ [a, b]).length - 2) = l := by
  have h1 : l ++ [a, b] = l ++ [a, b] := rfl
  have : (l ++ [a, b]).length - 2 = l.length := by simp
  rw [this, List.take_left]

theorem memLoop_cons_neg {temp u : List Char} {m : ℚ} {rest : List (List Char × ℚ)}
    (h : endsWithL temp u = false) : memLoop temp ((u, m) :: rest) = memLoop temp rest := by
  simp [memLoop, h]

theorem memLoop_cons_pos {temp u : List Char} {m : ℚ} {rest : List (List Char × ℚ)}
    (h : endsWithL temp u = true) :
    memLoop temp ((u, m) :: rest) =
      some ((pyFloatL (temp.take (temp.length - u.length))).getD 0 * m) := by
  simp [memLoop, h]

theorem filter_ne_eq_self {l : List Char} {x : Char} (h : x ∉ l) :
    l.filter (fun c => decide (c ≠ x)) = l := by
  rw [List.filter_eq_self]
  intro a ha
  exact decide_eq_true (fun hax => h (hax ▸ ha))

theorem memLoop_hit_concat {l u : List Char} {m : ℚ} {rest : List (List Char × ℚ)} :
    memLoop (l ++ u) ((u, m) :: rest) = some ((pyFloatL l).getD 0 * m) := by
  rw [memLoop_cons_pos (endsWithL_append_self l u)]
  have ht : (l ++ u).length - u.length = l.length := by simp
  rw [ht, List.take_left]

theorem memLoop_nonneg {temp : List Char} {units : List (List Char × ℚ)}
    (hm : '-' ∉ temp) (hu : ∀ p ∈ units, 0 ≤ p.2) {v : ℚ}
    (h : memLoop temp units = some v) : 0 ≤ v := by
  induction units with
  | nil => simp [memLoop] at h
  | cons p rest ih =>
    obtain ⟨u, mult⟩ := p
    rw [memLoop] at h
    split at h
    · simp only [Option.some.injEq] at h
      have hsub : '-' ∉ temp.take (temp.length - u.length) :=
        fun hmem => hm (List.take_subset _ _ hmem)
      exact h ▸ mul_nonneg (pyFloatL_nonneg hsub) (hu (u, mult) (List.mem_cons_self _ _))
    · exact ih (fun p hp => hu p (List.mem_cons_of_mem _ hp)) h

/-! Scanning the eight-entry multiplier table on a string ending in a bare
`K`/`M`/`G`/`T`: the four `i`-units never match (the last character is not
`'i'`), the matching one-letter unit is hit. -/

theorem memLoop8_K (l : List Char) :
    memLoop (l ++ ['K']) NsResourceReport.MEMORY_MULTIPLIERS =
      some ((pyFloatL l).getD 0 * (1/1024)) := by
  have g : (l ++ ['K']).getLast? = some 'K' := List.getLast?_concat l
  have e1 : endsWithL (l ++ ['K']) ['K','i'] = false :=
    endsWithL_false_of_getLast g rfl (by decide)
  have e2 : endsWithL (l ++ ['K']) ['M','i'] = false :=
    endsWithL_false_of_getLast g rfl (by decide)
  have e3 : endsWithL (l ++ ['K']) ['G','i'] = false :=
    endsWithL_false_of_getLast g rfl (by decide)
  have e4 : endsWithL (l ++ ['K']) ['T','i'] = false :=
    endsWithL_false_of_getLast g rfl (by decide)
  rw [NsResourceReport.MEMORY_MULTIPLIERS, memLoop_cons_neg e1, memLoop_cons_neg e2,
    memLoop_cons_neg e3, memLoop_cons_neg e4, memLoop_hit_concat]

theorem memLoop8_M (l : List Char) :
    memLoop (l ++ ['M']) NsResourceReport.MEMORY_MULTIPLIERS =
      some ((pyFloatL l).getD 0 * 1) := by
  have g : (l ++ ['M']).getLast? = some 'M' := List.getLast?_concat l
  have e1 : endsWithL (l ++ ['M']) ['K','i'] = false :=
    endsWithL_false_of_getLast g rfl (by decide)
  have e2 : endsWithL (l ++ ['M']) ['M','i'] = false :=
    endsWithL_false_of_getLast g rfl (by decide)
  have e3 : endsWithL (l ++ ['M']) ['G','i'] = false :=
    endsWithL_false_of_getLast g rfl (by decide)
  have e4 : endsWithL (l ++ ['M']) ['T','i'] = false :=
    endsWithL_false_of_getLast g rfl (by decide)
  have e5 : endsWithL (l ++ ['M']) ['K'] = false :=
    endsWithL_false_of_getLast g rfl (by decide)
  rw [NsResourceReport.MEMORY_MULTIPLIERS, memLoop_cons_neg e1, memLoop_cons_neg e2,
    memLoop_cons_neg e3, memLoop_cons_neg e4, memLoop_cons_neg e5, memLoop_hit_concat]

theorem memLoop8_G (l : List Char) :
    memLoop (l ++ ['G']) NsResourceReport.MEMORY_MULTIPLIERS =
      some ((pyFloatL l).getD 0 * 1024) := by
  have g : (l ++ ['G']).getLast? = some 'G' := List.getLast?_concat l
  have e1 : endsWithL (l ++ ['G']) ['K','i'] = false :=
    endsWithL_false_of_getLast g rfl (by decide)
  have e2 : endsWithL (l ++ ['G']) ['M','i'] = false :=
    endsWithL_false_of_getLast g rfl (by decide)
  have e3 : endsWithL (l ++ ['G']) ['G','i'] = false :=
    endsWithL_false_of_getLast g rfl (by decide)
  have e4 : endsWithL (l ++ ['G']) ['T','i'] = false :=
    endsWithL_false_of_getLast g rfl (by decide)
  have e5 : endsWithL (l ++ ['G']) ['K'] = false :=
    endsWithL_false_of_getLast g rfl (by decide)
  have e6 : endsWithL (l ++ ['G']) ['M'] = false :=
    endsWithL_false_of_getLast g rfl (by decide)
  rw [NsResourceReport.MEMORY_MULTIPLIERS, memLoop_cons_neg e1, memLoop_cons_neg e2,
    memLoop_cons_neg e3, memLoop_cons_neg e4, memLoop_cons_neg e5, memLoop_cons_neg e6,
    memLoop_hit_concat]

theorem memLoop8_T (l : List Char) :
    memLoop (l ++ ['T']) NsResourceReport.MEMORY_MULTIPLIERS =
      some ((pyFloatL l).getD 0 * (1024*1024)) := by
  have g : (l ++ ['T']).getLast? = some 'T' := List.getLast?_concat l
  have e1 : endsWithL (l ++ ['T']) ['K','i'] = false :=
    endsWithL_false_of_getLast g rfl (by decide)
  have e2 : endsWithL (l ++ ['T']) ['M','i'] = false :=
    endsWithL_false_of_getLast g rfl (by decide)
  have e3 : endsWithL (l ++ ['T']) ['G','i'] = false :=
    endsWithL_false_of_getLast g rfl (by decide)
  have e4 : endsWithL (l ++ ['T']) ['T','i'] = false :=
    endsWithL_false_of_getLast g rfl (by decide)
  have e5 : endsWithL (l ++ ['T']) ['K'] = false :=
    endsWithL_false_of_getLast g rfl (by decide)
  have e6 : endsWithL (l ++ ['T']) ['M'] = false :=
    endsWithL_false_of_getLast g rfl (by decide)
  have e7 : endsWithL (l ++ ['T']) ['G'] = false :=
    endsWithL_false_of_getLast g rfl (by decide)
  rw [NsResourceReport.MEMORY_MULTIPLIERS, memLoop_cons_neg e1, memLoop_cons_neg e2,
    memLoop_cons_neg e3, memLoop_cons_neg e4, memLoop_cons_neg e5, memLoop_cons_neg e6,
    memLoop_cons_neg e7, memLoop_hit_concat]

/-! Scanning the four-entry table of `limitpython.py`. -/

theorem memLoop4_concat_none {l : List Char} {a : Char} (ha : a ≠ 'i') :
    memLoop (l ++ [a]) LimitPython.MEMORY_MULTIPLIERS = none := by
  have g : (l ++ [a]).getLast? = some a := List.getLast?_concat l
  have hne : ('i' : Char) ≠ a := fun he => ha he.symm
  have e1 : endsWithL (l ++ [a]) ['K','i'] = false :=
    endsWithL_false_of_getLast g rfl hne
  have e2 : endsWithL (l ++ [a]) ['M','i'] = false :=
    endsWithL_false_of_getLast g rfl hne
  have e3 : endsWithL (l ++ [a]) ['G','i'] = false :=
    endsWithL_false_of_getLast g rfl hne
  have e4 : endsWithL (l ++ [a]) ['T','i'] = false :=
    endsWithL_false_of_getLast g rfl hne
  rw [LimitPython.MEMORY_MULTIPLIERS, memLoop_cons_neg e1, memLoop_cons_neg e2,
    memLoop_cons_neg e3, memLoop_cons_neg e4, memLoop]

theorem clean_concat2_not_mem {l : List Char} (hl : ∀ c ∈ l, c.isDigit = true ∨ c = '.')
    {x a b : Char} (hx1 : x.isDigit = false) (hx2 : x ≠ '.') (hxa : x ≠ a) (hxb : x ≠ b) :
    x ∉ l ++ [a, b] := by
  intro hmem
  rcases List.mem_append.mp hmem with hmem | hmem
  · exact clean_not_mem hl hx1 hx2 hmem
  · rcases List.mem_cons.mp hmem with h | h
    · exact hxa h
    · rcases List.mem_cons.mp h with h | h
      · exact hxb h
      · exact absurd h (List.not_mem_nil x)

theorem memLoop4_Ki (l : List Char) :
    memLoop (l ++ ['K','i']) LimitPython.MEMORY_MULTIPLIERS =
      some ((pyFloatL l).getD 0 * (1/1024)) := by
  rw [LimitPython.MEMORY_MULTIPLIERS, memLoop_hit_concat]

theorem memLoop4_Mi {l : List Char} (hl : ∀ c ∈ l, c.isDigit = true ∨ c = '.') :
    memLoop (l ++ ['M','i']) LimitPython.MEMORY_MULTIPLIERS =
      some ((pyFloatL l).getD 0 * 1) := by
  have e1 : endsWithL (l ++ ['M','i']) ['K','i'] = false :=
    endsWithL_false_of_mem (List.mem_cons_self 'K' ['i'])
      (clean_concat2_not_mem hl (by decide) (by decide) (by decide) (by decide))
  rw [LimitPython.MEMORY_MULTIPLIERS, memLoop_cons_neg e1, memLoop_hit_concat]

theorem memLoop4_Gi {l : List Char} (hl : ∀ c ∈ l, c.isDigit = true ∨ c = '.') :
    memLoop (l ++ ['G','i']) LimitPython.MEMORY_MULTIPLIERS =
      some ((pyFloatL l).getD 0 * 1024) := by
  have e1 : endsWithL (l ++ ['G','i']) ['K','i'] = false :=
    endsWithL_false_of_mem (List.mem_cons_self 'K' ['i'])
      (clean_concat2_not_mem hl (by decide) (by decide) (by decide) (by decide))
  have e2 : endsWithL (l ++ ['G','i']) ['M','i'] = false :=
    endsWithL_false_of_mem (List.mem_cons_self 'M' ['i'])
      (clean_concat2_not_mem hl (by decide) (by decide) (by decide) (by decide))
  rw [LimitPython.MEMORY_MULTIPLIERS, memLoop_cons_neg e1, memLoop_cons_neg e2,
    memLoop_hit_concat]

theorem memLoop4_Ti {l : List Char} (hl : ∀ c ∈ l, c.isDigit = true ∨ c = '.') :
    memLoop (l ++ ['T','i']) LimitPython.MEMORY_MULTIPLIERS =
      some ((pyFloatL l).getD 0 * (1024*1024)) := by
  have e1 : endsWithL (l ++ ['T','i']) ['K','i'] = false :=
    endsWithL_false_of_mem (List.mem_cons_self 'K' ['i'])
      (clean_concat2_not_mem hl (by decide) (by decide) (by decide) (by decide))
  have e2 : endsWithL (l ++ ['T','i']) ['M','i'] = false :=
    endsWithL_false_of_mem (List.mem_cons_self 'M' ['i'])
      (clean_concat2_not_mem hl (by decide) (by decide) (by decide) (by decide))
  have e3 : endsWithL (l ++ ['T','i']) ['G','i'] = false :=
    endsWithL_false_of_mem (List.mem_cons_self 'G' ['i'])
      (clean_concat2_not_mem hl (by decide) (by decide) (by decide) (by decide))
  rw [LimitPython.MEMORY_MULTIPLIERS, memLoop_cons_neg e1, memLoop_cons_neg e2,
    memLoop_cons_neg e3, memLoop_hit_concat]

/-! `str.replace` lemmas. -/

theorem replaceChar_append (l₁ l₂ : List Char) (c : Char) (r : List Char) :
    LimitPython.replaceChar (l₁ ++ l₂) c r =
      LimitPython.replaceChar l₁ c r ++ LimitPython.replaceChar l₂ c r := by
  simp [LimitPython.replaceChar]

theorem replaceChar_of_forall_ne {l : List Char} {c : Char} {r : List Char}
    (h : ∀ x ∈ l, x ≠ c) : LimitPython.replaceChar l c r = l := by
  induction l with
  | nil => rfl
  | cons a as ih =>
    have ha := h a (List.mem_cons_self a as)
    have htail := ih (fun x hx => h x (List.mem_cons_of_mem a hx))
    simp only [LimitPython.replaceChar, List.map_cons, List.flatten_cons, if_neg ha] at htail ⊢
    rw [htail]
    rfl

theorem replaceChar_single_eq (c : Char) (r : List Char) :
    LimitPython.replaceChar [c] c r = r := by
  simp [LimitPython.replaceChar]

theorem mem_replaceChar {x : Char} {l : List Char} {c : Char} {r : List Char}
    (h : x ∈ LimitPython.replaceChar l c r) : x ∈ l ∨ x ∈ r := by
  simp only [LimitPython.replaceChar] at h
  rcases List.mem_flatten.mp h with ⟨w, hw, hx⟩
  rcases List.mem_map.mp hw with ⟨y, hy, rfl⟩
  by_cases hyc : y = c
  · rw [if_pos hyc] at hx; exact Or.inr hx
  · rw [if_neg hyc] at hx
    rcases List.mem_cons.mp hx with rfl | h0
    · exact Or.inl hy
    · exact absurd h0 (List.not_mem_nil x)

/-! ### Fold characterisations -/

theorem pod_no_req_iff (p : Pod) :
    (p.containers.any (fun c => decide (c.cpu_req ≠ "" ∨ c.mem_req ≠ ""))) = false ↔
      ∀ c ∈ p.containers, c.cpu_req = "" ∧ c.mem_req = "" := by
  rw [List.any_eq_false]
  constructor
  · intro h c hc
    have := h c hc
    simp only [decide_eq_true_eq] at this
    push_neg at this
    exact this
  · intro h c hc
    simp only [decide_eq_true_eq]
    push_neg
    exact h c hc

theorem foldl_addPod (items : List Pod) (acc : NsResourceReport.NsTotals) :
    (items.foldl NsResourceReport.addPod acc).pods = acc.pods + items.length ∧
    (items.foldl NsResourceReport.addPod acc).no_req_pods = acc.no_req_pods +
      (items.filter (fun p => decide (∀ c ∈ p.containers, c.cpu_req = "" ∧ c.mem_req = ""))).length ∧
    (items.foldl NsResourceReport.addPod acc).error = acc.error := by
  induction items generalizing acc with
  | nil => simp
  | cons p ps ih =>
    rw [List.foldl_cons]
    obtain ⟨h1, h2, h3⟩ := ih (NsResourceReport.addPod acc p)
    have hpods : (NsResourceReport.addPod acc p).pods = acc.pods + 1 := rfl
    have herr : (NsResourceReport.addPod acc p).error = acc.error := rfl
    refine ⟨?_, ?_, h3.trans herr⟩
    · rw [h1, hpods, List.length_cons]
      omega
    · by_cases hreq : ∀ c ∈ p.containers, c.cpu_req = "" ∧ c.mem_req = ""
      · have hfalse : (p.containers.any (fun c => decide (c.cpu_req ≠ "" ∨ c.mem_req ≠ ""))) = false :=
          (pod_no_req_iff p).mpr hreq
        have hstep : (NsResourceReport.addPod acc p).no_req_pods = acc.no_req_pods + 1 := by
          simp only [NsResourceReport.addPod]
          rw [hfalse]
          rfl
        rw [h2, hstep, List.filter_cons, if_pos (decide_eq_true hreq), List.length_cons]
        omega
      · have htrue : (p.containers.any (fun c => decide (c.cpu_req ≠ "" ∨ c.mem_req ≠ ""))) = true := by
          cases h' : p.containers.any (fun c => decide (c.cpu_req ≠ "" ∨ c.mem_req ≠ "")) with
          | false => exact absurd ((pod_no_req_iff p).mp h') hreq
          | true => rfl
        have hstep : (NsResourceReport.addPod acc p).no_req_pods = acc.no_req_pods := by
          simp only [NsResourceReport.addPod]
          rw [htrue]
          rfl
        rw [h2, hstep, List.filter_cons,
          if_neg (fun hd => hreq (of_decide_eq_true hd))]

theorem top_valid_lines_cons_valid {line : String} {ls : List String}
    {nm cpu mem : List Char} {rest : List (List Char)}
    (h : pySplitWs line.data = nm :: cpu :: mem :: rest) :
    NsResourceReport.top_valid_lines (line :: ls) =
      (String.mk cpu, String.mk mem) :: NsResourceReport.top_valid_lines ls := by
  simp [NsResourceReport.top_valid_lines, List.filterMap_cons, h]

theorem top_valid_lines_cons_skip {line : String} {ls : List String}
    (h : (pySplitWs line.data).length < 3) :
    NsResourceReport.top_valid_lines (line :: ls) = NsResourceReport.top_valid_lines ls := by
  simp only [NsResourceReport.top_valid_lines, List.filterMap_cons]
  match hsp : pySplitWs line.data with
  | [] => rfl
  | [a] => rfl
  | [a, b] => rfl
  | a :: b :: c :: r => rw [hsp, List.length_cons, List.length_cons, List.length_cons] at h; omega

theorem topStep_valid {acc : ℚ × ℚ × ℕ} {line : String}
    {nm cpu mem : List Char} {rest : List (List Char)}
    (h : pySplitWs line.data = nm :: cpu :: mem :: rest) :
    NsResourceReport.topStep acc line =
      (acc.1 + convert_cpu_to_m (String.mk cpu),
       acc.2.1 + NsResourceReport.convert_memory_to_mib (String.mk mem),
       acc.2.2 + 1) := by
  rw [NsResourceReport.topStep, h]

theorem topStep_skip {acc : ℚ × ℚ × ℕ} {line : String}
    (h : (pySplitWs line.data).length < 3) :
    NsResourceReport.topStep acc line = acc := by
  rw [NsResourceReport.topStep]
  match hsp : pySplitWs line.data with
  | [] => rfl
  | [a] => rfl
  | [a, b] => rfl
  | a :: b :: c :: r => rw [hsp, List.length_cons, List.length_cons, List.length_cons] at h; omega

theorem foldl_topStep (lines : List String) (a b : ℚ) (n : ℕ) :
    lines.foldl NsResourceReport.topStep (a, b, n) =
      (a + ((NsResourceReport.top_valid_lines lines).map (fun q => convert_cpu_to_m q.1)).sum,
       b + ((NsResourceReport.top_valid_lines lines).map
              (fun q => NsResourceReport.convert_memory_to_mib q.2)).sum,
       n + (NsResourceReport.top_valid_lines lines).length) := by
  induction lines generalizing a b n with
  | nil => simp [NsResourceReport.top_valid_lines]
  | cons line ls ih =>
    rw [List.foldl_cons]
    match hsp : pySplitWs line.data with
    | nm :: cpu :: mem :: rest =>
      rw [topStep_valid hsp, ih, top_valid_lines_cons_valid hsp]
      simp only [List.map_cons, List.sum_cons, List.length_cons]
      refine Prod.ext ?_ (Prod.ext ?_ ?_) <;> simp <;> ring
    | [] =>
      rw [topStep_skip (by rw [hsp]; simp), ih, top_valid_lines_cons_skip (by rw [hsp]; simp)]
    | [x] =>
      rw [topStep_skip (by rw [hsp]; simp), ih, top_valid_lines_cons_skip (by rw [hsp]; simp)]
    | [x, y] =>
      rw [topStep_skip (by rw [hsp]; simp), ih, top_valid_lines_cons_skip (by rw [hsp]; simp)]

theorem lp_foldl (items : List Workload) (acc : LimitPython.LpReport) :
    (items.foldl LimitPython.lpStep acc).total_cpu_request_m =
        acc.total_cpu_request_m + (items.map LimitPython.lpContribCpuReq).sum ∧
    (items.foldl LimitPython.lpStep acc).total_cpu_limit_m =
        acc.total_cpu_limit_m + (items.map LimitPython.lpContribCpuLim).sum ∧
    (items.foldl LimitPython.lpStep acc).total_mem_request_mb =
        acc.total_mem_request_mb + (items.map LimitPython.lpContribMemReq).sum ∧
    (items.foldl LimitPython.lpStep acc).total_mem_limit_mb =
        acc.total_mem_limit_mb + (items.map LimitPython.lpContribMemLim).sum ∧
    (items.foldl LimitPython.lpStep acc).skipped =
        acc.skipped ++ LimitPython.lpSkippedNames items := by
  induction items generalizing acc with
  | nil => simp [LimitPython.lpSkippedNames]
  | cons it its ih =>
    rw [List.foldl_cons]
    obtain ⟨h1, h2, h3, h4, h5⟩ := ih (LimitPython.lpStep acc it)
    by_cases hk : it.kind = "DaemonSet"
    · have hstep : LimitPython.lpStep acc it =
          { acc with skipped := acc.skipped ++ [it.name] } := by
        simp only [LimitPython.lpStep, if_pos hk]
      have hc : it.kind = "DaemonSet" ∨ it.replicas ≤ 0 := Or.inl hk
      have hsk : LimitPython.lpSkippedNames (it :: its) =
          it.name :: LimitPython.lpSkippedNames its := by
        simp [LimitPython.lpSkippedNames, List.filter_cons, hk]
      refine ⟨?_, ?_, ?_, ?_, ?_⟩
      · rw [h1, hstep]
        simp [LimitPython.lpContribCpuReq, hc]
      · rw [h2, hstep]
        simp [LimitPython.lpContribCpuLim, hc]
      · rw [h3, hstep]
        simp [LimitPython.lpContribMemReq, hc]
      · rw [h4, hstep]
        simp [LimitPython.lpContribMemLim, hc]
      · rw [h5, hstep, hsk]
        simp
    · have hsk : LimitPython.lpSkippedNames (it :: its) = LimitPython.lpSkippedNames its := by
        simp [LimitPython.lpSkippedNames, List.filter_cons, hk]
      by_cases hr : it.replicas ≤ 0
      · have hstep : LimitPython.lpStep acc it = acc := by
          simp only [LimitPython.lpStep, if_neg hk, if_pos hr]
        have hc : it.kind = "DaemonSet" ∨ it.replicas ≤ 0 := Or.inr hr
        refine ⟨?_, ?_, ?_, ?_, ?_⟩
        · rw [h1, hstep]
          simp [LimitPython.lpContribCpuReq, hc]
        · rw [h2, hstep]
          simp [LimitPython.lpContribCpuLim, hc]
        · rw [h3, hstep]
          simp [LimitPython.lpContribMemReq, hc]
        · rw [h4, hstep]
          simp [LimitPython.lpContribMemLim, hc]
        · rw [h5, hstep, hsk]
      · have hc : ¬(it.kind = "DaemonSet" ∨ it.replicas ≤ 0) := by
          intro h; rcases h with h | h
          · exact hk h
          · exact hr h
        refine ⟨?_, ?_, ?_, ?_, ?_⟩
        · rw [h1]
          have : (LimitPython.lpStep acc it).total_cpu_request_m =
              acc.total_cpu_request_m + LimitPython.pod_cpu_request_m it.containers * (it.replicas : ℚ) := by
            simp only [LimitPython.lpStep, if_neg hk, if_neg hr]
          rw [this]
          simp [LimitPython.lpContribCpuReq, hc, add_assoc]
        · rw [h2]
          have : (LimitPython.lpStep acc it).total_cpu_limit_m =
              acc.total_cpu_limit_m + LimitPython.pod_cpu_limit_m it.containers * (it.replicas : ℚ) := by
            simp only [LimitPython.lpStep, if_neg hk, if_neg hr]
          rw [this]
          simp [LimitPython.lpContribCpuLim, hc, add_assoc]
        · rw [h3]
          have : (LimitPython.lpStep acc it).total_mem_request_mb =
              acc.total_mem_request_mb + LimitPython.pod_mem_request_mb it.containers * (it.replicas : ℚ) := by
            simp only [LimitPython.lpStep, if_neg hk, if_neg hr]
          rw [this]
          simp [LimitPython.lpContribMemReq, hc, add_assoc]
        · rw [h4]
          have : (LimitPython.lpStep acc it).total_mem_limit_mb =
              acc.total_mem_limit_mb + LimitPython.pod_mem_limit_mb it.containers * (it.replicas : ℚ) := by
            simp only [LimitPython.lpStep, if_neg hk, if_neg hr]
          rw [this]
          simp [LimitPython.lpContribMemLim, hc, add_assoc]
        · rw [h5, hsk]
          have : (LimitPython.lpStep acc it).skipped = acc.skipped := by
            simp only [LimitPython.lpStep, if_neg hk, if_neg hr]
          rw [this]

theorem nl_foldl (items : List Workload) (acc : NamespaceLimitsReq.NlReport) :
    (items.foldl NamespaceLimitsReq.nlStep acc).report_data =
        acc.report_data ++ items.map NamespaceLimitsReq.nlRowOf ∧
    (items.foldl NamespaceLimitsReq.nlStep acc).total_cpu_req_m =
        acc.total_cpu_req_m + (items.map (fun it =>
          NamespaceLimitsReq.pod_cpu_request_m it.containers * (it.replicas : ℚ))).sum ∧
    (items.foldl NamespaceLimitsReq.nlStep acc).total_cpu_lim_m =
        acc.total_cpu_lim_m + (items.map (fun it =>
          NamespaceLimitsReq.pod_cpu_limit_m it.containers * (it.replicas : ℚ))).sum ∧
    (items.foldl NamespaceLimitsReq.nlStep acc).total_mem_req_mb =
        acc.total_mem_req_mb + (items.map (fun it =>
          NamespaceLimitsReq.pod_mem_request_mb it.containers * (it.replicas : ℚ))).sum ∧
    (items.foldl NamespaceLimitsReq.nlStep acc).total_mem_lim_mb =
        acc.total_mem_lim_mb + (items.map (fun it =>
          NamespaceLimitsReq.pod_mem_limit_mb it.containers * (it.replicas : ℚ))).sum := by
  induction items generalizing acc with
  | nil => simp
  | cons it its ih =>
    rw [List.foldl_cons]
    obtain ⟨h1, h2, h3, h4, h5⟩ := ih (NamespaceLimitsReq.nlStep acc it)
    refine ⟨?_, ?_, ?_, ?_, ?_⟩
    · rw [h1]
      have : (NamespaceLimitsReq.nlStep acc it).report_data =
          acc.report_data ++ [NamespaceLimitsReq.nlRowOf it] := by
        simp only [NamespaceLimitsReq.nlStep, NamespaceLimitsReq.nlRowOf]
      rw [this, List.map_cons, List.append_assoc]
      rfl
    · rw [h2]
      have : (NamespaceLimitsReq.nlStep acc it).total_cpu_req_m =
          acc.total_cpu_req_m + NamespaceLimitsReq.pod_cpu_request_m it.containers * (it.replicas : ℚ) := by
        simp only [NamespaceLimitsReq.nlStep]
      rw [this, List.map_cons, List.sum_cons, add_assoc]
    · rw [h3]
      have : (NamespaceLimitsReq.nlStep acc it).total_cpu_lim_m =
          acc.total_cpu_lim_m + NamespaceLimitsReq.pod_cpu_limit_m it.containers * (it.replicas : ℚ) := by
        simp only [NamespaceLimitsReq.nlStep]
      rw [this, List.map_cons, List.sum_cons, add_assoc]
    · rw [h4]
      have : (NamespaceLimitsReq.nlStep acc it).total_mem_req_mb =
          acc.total_mem_req_mb + NamespaceLimitsReq.pod_mem_request_mb it.containers * (it.replicas : ℚ) := by
        simp only [NamespaceLimitsReq.nlStep]
      rw [this, List.map_cons, List.sum_cons, add_assoc]
    · rw [h5]
      have : (NamespaceLimitsReq.nlStep acc it).total_mem_lim_mb =
          acc.total_mem_lim_mb + NamespaceLimitsReq.pod_mem_limit_mb it.containers * (it.replicas : ℚ) := by
        simp only [NamespaceLimitsReq.nlStep]
      rw [this, List.map_cons, List.sum_cons, add_assoc]

/-! ### Node-auditor lemmas -/

theorem mem_dictInsert {kv : String × NodeAuditor.NodeMetrics}
    {m : List (String × NodeAuditor.NodeMetrics)} {k : String} {v : NodeAuditor.NodeMetrics}
    (h : kv ∈ NodeAuditor.dictInsert m k v) : kv ∈ m ∨ kv = (k, v) := by
  unfold NodeAuditor.dictInsert at h
  split at h
  · rcases List.mem_map.mp h with ⟨p, hp, hpe⟩
    by_cases hk : p.1 = k
    · rw [if_pos hk] at hpe
      exact Or.inr hpe.symm
    · rw [if_neg hk] at hpe
      exact Or.inl (hpe ▸ hp)
  · rcases List.mem_append.mp h with h | h
    · exact Or.inl h
    · rcases List.mem_cons.mp h with h | h
      · exact Or.inr h
      · exact absurd h (List.not_mem_nil kv)

theorem get_nodes_data_aux (nodes : List NodeAuditor.NodeInfo)
    (m : List (String × NodeAuditor.NodeMetrics)) (hm : ∀ p ∈ m, p.2.requested_mib = 0) :
    ∀ p ∈ nodes.foldl (fun m node =>
        NodeAuditor.dictInsert m node.name
          ⟨NodeAuditor.convert_memory_to_mib node.capacity,
           NodeAuditor.convert_memory_to_mib node.allocatable, 0⟩) m, p.2.requested_mib = 0 := by
  induction nodes generalizing m with
  | nil => intro p hp; exact hm p hp
  | cons nd nds ih =>
    intro p hp
    rw [List.foldl_cons] at hp
    have hm' : ∀ q ∈ NodeAuditor.dictInsert m nd.name
        ⟨NodeAuditor.convert_memory_to_mib nd.capacity,
         NodeAuditor.convert_memory_to_mib nd.allocatable, 0⟩, q.2.requested_mib = 0 := by
      intro q hq
      rcases mem_dictInsert hq with hq | hq
      · exact hm q hq
      · rw [hq]
    exact ih _ hm' p hp

theorem get_nodes_data_requested_zero {nodes : List NodeAuditor.NodeInfo}
    {kv : String × NodeAuditor.NodeMetrics} (h : kv ∈ NodeAuditor.get_nodes_data nodes) :
    kv.2.requested_mib = 0 :=
  get_nodes_data_aux nodes [] (fun p hp => absurd hp (List.not_mem_nil p)) kv h

theorem committedSum_cons (name : String) (p : Pod) (ps : List Pod) :
    NodeAuditor.committedSum name (p :: ps) =
      (if NodeAuditor.countedOn name p then NodeAuditor.pod_total_mem_request_mib p else 0) +
        NodeAuditor.committedSum name ps := by
  unfold NodeAuditor.committedSum
  rw [List.filter_cons]
  by_cases hc : NodeAuditor.countedOn name p
  · rw [if_pos (decide_eq_true hc), if_pos hc, List.map_cons, List.sum_cons]
  · rw [if_neg (fun hd => hc (of_decide_eq_true hd)), if_neg hc, zero_add]

theorem committedSum_nil (name : String) : NodeAuditor.committedSum name [] = 0 := rfl

theorem mem_bumpRequested {k : String} {v : NodeAuditor.NodeMetrics}
    {m : List (String × NodeAuditor.NodeMetrics)} {name : String} {add : ℚ}
    (h : (k, v) ∈ NodeAuditor.bumpRequested m name add) :
    ∃ v₀, (k, v₀) ∈ m ∧
      v.capacity_mib = v₀.capacity_mib ∧
      v.allocatable_mib = v₀.allocatable_mib ∧
      v.requested_mib = v₀.requested_mib + (if k = name then add else 0) := by
  unfold NodeAuditor.bumpRequested at h
  rcases List.mem_map.mp h with ⟨p, hp, hpe⟩
  by_cases hk : p.1 = name
  · rw [if_pos hk, Prod.mk.injEq] at hpe
    obtain ⟨hpe1, hpe2⟩ := hpe
    have hkname : k = name := hpe1 ▸ hk
    have hmem : (k, p.2) ∈ m := by
      have : (k, p.2) = p := by rw [← hpe1]
      exact this ▸ hp
    refine ⟨p.2, hmem, ?_, ?_, ?_⟩
    · rw [← hpe2]
    · rw [← hpe2]
    · rw [← hpe2, if_pos hkname]
  · rw [if_neg hk] at hpe
    have hp' : (k, v) ∈ m := hpe ▸ hp
    have hkname : ¬(k = name) := fun he => hk (by rw [hpe]; exact he)
    refine ⟨v, hp', rfl, rfl, ?_⟩
    rw [if_neg hkname, add_zero]

theorem mem_paStep {k : String} {v : NodeAuditor.NodeMetrics}
    {m : List (String × NodeAuditor.NodeMetrics)} {pod : Pod}
    (h : (k, v) ∈ NodeAuditor.paStep m pod) :
    ∃ v₀, (k, v₀) ∈ m ∧
      v.capacity_mib = v₀.capacity_mib ∧
      v.allocatable_mib = v₀.allocatable_mib ∧
      v.requested_mib = v₀.requested_mib +
        (if NodeAuditor.countedOn k pod then NodeAuditor.pod_total_mem_request_mib pod else 0) := by
  unfold NodeAuditor.paStep at h
  split at h
  · next hphase =>
    split at h
    · next hguard =>
      rcases mem_bumpRequested h with ⟨v₀, hv, hcap, hall, hreq⟩
      refine ⟨v₀, hv, hcap, hall, ?_⟩
      rw [hreq]
      by_cases hk : k = pod.nodeName
      · rw [if_pos hk, if_pos ⟨hphase, hguard.1, hk.symm⟩]
      · rw [if_neg hk, if_neg (fun hc => hk hc.2.2.symm)]
    · next hguard =>
      refine ⟨v, h, rfl, rfl, ?_⟩
      rw [if_neg, add_zero]
      intro hc
      rcases hc with ⟨hph, hne, heq⟩
      refine hguard ⟨heq ▸ hne, ?_⟩
      rw [List.any_eq_true]
      exact ⟨(k, v), h, by rw [heq]; exact beq_self_eq_true k⟩
  · next hphase =>
    refine ⟨v, h, rfl, rfl, ?_⟩
    rw [if_neg (fun hc => hphase hc.1), add_zero]

theorem get_pods_requests_mem {pods : List Pod} {k : String} {v : NodeAuditor.NodeMetrics}
    {m : List (String × NodeAuditor.NodeMetrics)}
    (h : (k, v) ∈ NodeAuditor.get_pods_requests m pods) :
    ∃ v₀, (k, v₀) ∈ m ∧
      v.capacity_mib = v₀.capacity_mib ∧
      v.allocatable_mib = v₀.allocatable_mib ∧
      v.requested_mib = v₀.requested_mib + NodeAuditor.committedSum k pods := by
  induction pods generalizing m v with
  | nil =>
    exact ⟨v, h, rfl, rfl, by rw [committedSum_nil, add_zero]⟩
  | cons p ps ih =>
    rw [NodeAuditor.get_pods_requests, List.foldl_cons] at h
    rcases ih h with ⟨v₁, hv₁, hcap₁, hall₁, hreq₁⟩
    rcases mem_paStep hv₁ with ⟨v₀, hv₀, hcap₀, hall₀, hreq₀⟩
    refine ⟨v₀, hv₀, hcap₁.trans hcap₀, hall₁.trans hall₀, ?_⟩
    rw [hreq₁, hreq₀, committedSum_cons, add_assoc]

/-! ### Evaluation of the memory parsers on unit-suffixed numerals -/

theorem numeral_filter_i {s : String} (h : IsNumeral s) :
    s.data.filter (fun c => decide (c ≠ 'i')) = s.data :=
  filter_ne_eq_self (clean_not_mem h.1 (by decide) (by decide))

theorem numeral_not_endsWith {s : String} (h : IsNumeral s) {x : Char}
    (hx1 : x.isDigit = false) (hx2 : x ≠ '.') : endsWithL s.data [x] = false := by
  have hne := numeral_data_ne_nil h
  have hlast : s.data.getLast? = some (s.data.getLast hne) := List.getLast?_eq_getLast _ hne
  refine endsWithL_false_of_getLast hlast rfl ?_
  intro he
  rcases h.1 _ (List.getLast_mem hne) with hd | hd
  · rw [← he] at hd
    exact absurd hd (by simp [hx1])
  · rw [← he] at hd
    exact hx2 hd

theorem pyFloatL_concat_bad {s : String} (h : IsNumeral s) {x : Char}
    (hx1 : x.isDigit = false) (hx2 : x ≠ '.') : pyFloatL (s.data ++ [x]) = none := by
  have hne := numeral_data_ne_nil h
  match hd : s.data with
  | [] => exact absurd hd hne
  | c :: t =>
    have hc := h.1 c (by rw [hd]; exact List.mem_cons_self c t)
    have hcm : c ≠ '-' := by
      intro he; rw [he] at hc
      rcases hc with h' | h' <;> exact absurd h' (by decide)
    have hcp : c ≠ '+' := by
      intro he; rw [he] at hc
      rcases hc with h' | h' <;> exact absurd h' (by decide)
    rw [List.cons_append]
    simp only [pyFloatL, if_neg hcm, if_neg hcp]
    exact pyFloatCore_none_of_bad
      (List.mem_cons_of_mem c (List.mem_append_right t (List.mem_singleton.mpr rfl)))
      hx1 hx2

theorem ns_conv_K (s : String) (h : IsNumeral s) :
    NsResourceReport.convert_memory_to_mib (s ++ "K") = numVal s * (1/1024) ∧
    NsResourceReport.convert_memory_to_mib (s ++ "Ki") = numVal s * (1/1024) := by
  have hfl := pyFloatL_numeral h
  constructor
  · unfold NsResourceReport.convert_memory_to_mib
    rw [show (s ++ "K").data = s.data ++ ['K'] from by rw [String.data_append]]
    rw [if_neg (by simp), List.filter_append, numeral_filter_i h,
      show List.filter (fun c => decide (c ≠ 'i')) ['K'] = ['K'] from rfl,
      memLoop8_K, hfl]
    rfl
  · unfold NsResourceReport.convert_memory_to_mib
    rw [show (s ++ "Ki").data = s.data ++ ['K','i'] from by rw [String.data_append]]
    rw [if_neg (by simp), List.filter_append, numeral_filter_i h,
      show List.filter (fun c => decide (c ≠ 'i')) ['K','i'] = ['K'] from rfl,
      memLoop8_K, hfl]
    rfl

theorem ns_conv_M (s : String) (h : IsNumeral s) :
    NsResourceReport.convert_memory_to_mib (s ++ "M") = numVal s * 1 ∧
    NsResourceReport.convert_memory_to_mib (s ++ "Mi") = numVal s * 1 := by
  have hfl := pyFloatL_numeral h
  constructor
  · unfold NsResourceReport.convert_memory_to_mib
    rw [show (s ++ "M").data = s.data ++ ['M'] from by rw [String.data_append]]
    rw [if_neg (by simp), List.filter_append, numeral_filter_i h,
      show List.filter (fun c => decide (c ≠ 'i')) ['M'] = ['M'] from rfl,
      memLoop8_M, hfl]
    rfl
  · unfold NsResourceReport.convert_memory_to_mib
    rw [show (s ++ "Mi").data = s.data ++ ['M','i'] from by rw [String.data_append]]
    rw [if_neg (by simp), List.filter_append, numeral_filter_i h,
      show List.filter (fun c => decide (c ≠ 'i')) ['M','i'] = ['M'] from rfl,
      memLoop8_M, hfl]
    rfl

theorem ns_conv_G (s : String) (h : IsNumeral s) :
    NsResourceReport.convert_memory_to_mib (s ++ "G") = numVal s * 1024 ∧
    NsResourceReport.convert_memory_to_mib (s ++ "Gi") = numVal s * 1024 := by
  have hfl := pyFloatL_numeral h
  constructor
  · unfold NsResourceReport.convert_memory_to_mib
    rw [show (s ++ "G").data = s.data ++ ['G'] from by rw [String.data_append]]
    rw [if_neg (by simp), List.filter_append, numeral_filter_i h,
      show List.filter (fun c => decide (c ≠ 'i')) ['G'] = ['G'] from rfl,
      memLoop8_G, hfl]
    rfl
  · unfold NsResourceReport.convert_memory_to_mib
    rw [show (s ++ "Gi").data = s.data ++ ['G','i'] from by rw [String.data_append]]
    rw [if_neg (by simp), List.filter_append, numeral_filter_i h,
      show List.filter (fun c => decide (c ≠ 'i')) ['G','i'] = ['G'] from rfl,
      memLoop8_G, hfl]
    rfl

theorem ns_conv_T (s : String) (h : IsNumeral s) :
    NsResourceReport.convert_memory_to_mib (s ++ "T") = numVal s * (1024*1024) ∧
    NsResourceReport.convert_memory_to_mib (s ++ "Ti") = numVal s * (1024*1024) := by
  have hfl := pyFloatL_numeral h
  constructor
  · unfold NsResourceReport.convert_memory_to_mib
    rw [show (s ++ "T").data = s.data ++ ['T'] from by rw [String.data_append]]
    rw [if_neg (by simp), List.filter_append, numeral_filter_i h,
      show List.filter (fun c => decide (c ≠ 'i')) ['T'] = ['T'] from rfl,
      memLoop8_T, hfl]
    rfl
  · unfold NsResourceReport.convert_memory_to_mib
    rw [show (s ++ "Ti").data = s.data ++ ['T','i'] from by rw [String.data_append]]
    rw [if_neg (by simp), List.filter_append, numeral_filter_i h,
      show List.filter (fun c => decide (c ≠ 'i')) ['T','i'] = ['T'] from rfl,
      memLoop8_T, hfl]
    rfl

theorem cpu_conv_m (s : String) (h : IsNumeral s) :
    convert_cpu_to_m (s ++ "m") = numVal s := by
  have hfl := pyFloatL_numeral h
  unfold convert_cpu_to_m
  rw [show (s ++ "m").data = s.data ++ ['m'] from by rw [String.data_append]]
  rw [if_neg (by simp), if_pos (endsWithL_append_self s.data ['m']),
    List.dropLast_concat, hfl]
  rfl

theorem cpu_conv_bare (s : String) (h : IsNumeral s) :
    convert_cpu_to_m s = numVal s * 1000 := by
  have hfl := pyFloatL_numeral h
  have hm : endsWithL s.data ['m'] = false :=
    numeral_not_endsWith h (by decide) (by decide)
  unfold convert_cpu_to_m
  rw [if_neg (numeral_data_ne_nil h), if_neg (by simp [hm]), hfl]
  rfl

theorem na_conv_eq_ns (s : String)
    (hits : (memLoop (s.data.filter (fun c => decide (c ≠ 'i')))
      NsResourceReport.MEMORY_MULTIPLIERS).isSome = true) :
    NodeAuditor.convert_memory_to_mib s = NsResourceReport.convert_memory_to_mib s := by
  unfold NodeAuditor.convert_memory_to_mib NsResourceReport.convert_memory_to_mib
  rw [NodeAuditor.MEMORY_MULTIPLIERS]
  by_cases hnil : s.data = []
  · rw [if_pos hnil, if_pos hnil]
  · rw [if_neg hnil, if_neg hnil]
    cases hm : memLoop (s.data.filter (fun c => decide (c ≠ 'i')))
        NsResourceReport.MEMORY_MULTIPLIERS with
    | some v => rfl
    | none => rw [hm] at hits; exact absurd hits (by simp)

theorem lp_conv_Ki (s : String) (h : IsNumeral s) :
    LimitPython.convert_memory_to_mib (s ++ "Ki") = numVal s * (1/1024) := by
  have hfl := pyFloatL_numeral h
  unfold LimitPython.convert_memory_to_mib
  rw [show (s ++ "Ki").data = s.data ++ ['K','i'] from by rw [String.data_append]]
  rw [if_neg (by simp), memLoop4_Ki, hfl]
  rfl

theorem lp_conv_Mi (s : String) (h : IsNumeral s) :
    LimitPython.convert_memory_to_mib (s ++ "Mi") = numVal s * 1 := by
  have hfl := pyFloatL_numeral h
  unfold LimitPython.convert_memory_to_mib
  rw [show (s ++ "Mi").data = s.data ++ ['M','i'] from by rw [String.data_append]]
  rw [if_neg (by simp), memLoop4_Mi h.1, hfl]
  rfl

theorem lp_conv_Gi (s : String) (h : IsNumeral s) :
    LimitPython.convert_memory_to_mib (s ++ "Gi") = numVal s * 1024 := by
  have hfl := pyFloatL_numeral h
  unfold LimitPython.convert_memory_to_mib
  rw [show (s ++ "Gi").data = s.data ++ ['G','i'] from by rw [String.data_append]]
  rw [if_neg (by simp), memLoop4_Gi h.1, hfl]
  rfl

theorem lp_conv_Ti (s : String) (h : IsNumeral s) :
    LimitPython.convert_memory_to_mib (s ++ "Ti") = numVal s * (1024*1024) := by
  have hfl := pyFloatL_numeral h
  unfold LimitPython.convert_memory_to_mib
  rw [show (s ++ "Ti").data = s.data ++ ['T','i'] from by rw [String.data_append]]
  rw [if_neg (by simp), memLoop4_Ti h.1, hfl]
  rfl

theorem lp_endsWith_concat_letter (s : String) {a b : Char} (hne : b ≠ a) :
    endsWithL (s.data ++ [a]) [b] = false :=
  endsWithL_false_of_getLast (List.getLast?_concat _) rfl hne

theorem lp_replace_concat (s : String) (h : IsNumeral s) {a : Char}
    (ha1 : a.isDigit = false) (ha2 : a ≠ '.') (r : List Char) :
    LimitPython.replaceChar (s.data ++ [a]) a r = s.data ++ r := by
  rw [replaceChar_append, replaceChar_single_eq,
    replaceChar_of_forall_ne (by
      intro x hx hxa
      exact clean_not_mem h.1 ha1 ha2 (by rw [← hxa]; exact hx))]

theorem lp_conv_K (s : String) (h : IsNumeral s) :
    LimitPython.convert_memory_to_mib (s ++ "K") = numVal s * (1/1024) := by
  have hfl := pyFloatL_numeral h
  have eG : endsWithL (s.data ++ ['K']) ['G'] = false := lp_endsWith_concat_letter s (by decide)
  have eM : endsWithL (s.data ++ ['K']) ['M'] = false := lp_endsWith_concat_letter s (by decide)
  have eK : endsWithL (s.data ++ ['K']) ['K'] = true := endsWithL_append_self _ _
  unfold LimitPython.convert_memory_to_mib
  rw [show (s ++ "K").data = s.data ++ ['K'] from by rw [String.data_append]]
  rw [if_neg (by simp), memLoop4_concat_none (by decide)]
  rw [if_neg (by simp [eG]), if_neg (by simp [eM]), if_pos eK,
    lp_replace_concat s h (by decide) (by decide)]
  dsimp only
  rw [memLoop4_Ki, hfl]
  rfl

theorem lp_conv_M (s : String) (h : IsNumeral s) :
    LimitPython.convert_memory_to_mib (s ++ "M") = numVal s * 1 := by
  have hfl := pyFloatL_numeral h
  have eG : endsWithL (s.data ++ ['M']) ['G'] = false := lp_endsWith_concat_letter s (by decide)
  have eM : endsWithL (s.data ++ ['M']) ['M'] = true := endsWithL_append_self _ _
  unfold LimitPython.convert_memory_to_mib
  rw [show (s ++ "M").data = s.data ++ ['M'] from by rw [String.data_append]]
  rw [if_neg (by simp), memLoop4_concat_none (by decide)]
  rw [if_neg (by simp [eG]), if_pos eM,
    lp_replace_concat s h (by decide) (by decide)]
  dsimp only
  rw [memLoop4_Mi h.1, hfl]
  rfl

theorem lp_conv_G (s : String) (h : IsNumeral s) :
    LimitPython.convert_memory_to_mib (s ++ "G") = numVal s * 1024 := by
  have hfl := pyFloatL_numeral h
  have eG : endsWithL (s.data ++ ['G']) ['G'] = true := endsWithL_append_self _ _
  unfold LimitPython.convert_memory_to_mib
  rw [show (s ++ "G").data = s.data ++ ['G'] from by rw [String.data_append]]
  rw [if_neg (by simp), memLoop4_concat_none (by decide)]
  rw [if_pos eG, lp_replace_concat s h (by decide) (by decide)]
  dsimp only
  rw [memLoop4_Gi h.1, hfl]
  rfl

theorem lp_conv_T (s : String) (h : IsNumeral s) :
    LimitPython.convert_memory_to_mib (s ++ "T") = 0 := by
  have eG : endsWithL (s.data ++ ['T']) ['G'] = false := lp_endsWith_concat_letter s (by decide)
  have eM : endsWithL (s.data ++ ['T']) ['M'] = false := lp_endsWith_concat_letter s (by decide)
  have eK : endsWithL (s.data ++ ['T']) ['K'] = false := lp_endsWith_concat_letter s (by decide)
  unfold LimitPython.convert_memory_to_mib
  rw [show (s ++ "T").data = s.data ++ ['T'] from by rw [String.data_append]]
  rw [if_neg (by simp), memLoop4_concat_none (by decide)]
  rw [if_neg (by simp [eG]), if_neg (by simp [eM]), if_neg (by simp [eK])]
  dsimp only
  rw [memLoop4_concat_none (by decide), pyFloatL_concat_bad h (by decide) (by decide)]
  rfl

/-! ### Claim theorems -/

theorem grpr_ok (items : List Pod) :
    NsResourceReport.get_running_pods_resources (.ok items) =
      items.foldl NsResourceReport.addPod ⟨0, 0, 0, 0, 0, 0, none⟩ := rfl

/-- Claim C9: in `get_running_pods_resources`, the pod counter increments
once per pod regardless of its number of containers, and a pod counts toward
`no_req_pods` iff none of its containers declares any cpu or memory request;
declared limits never influence the count (replacing every container by one
with the same requests but arbitrary limits leaves `no_req_pods`
unchanged). -/
theorem claim_C9 (items : List Pod) :
    (NsResourceReport.get_running_pods_resources (.ok items)).pods = items.length ∧
    (NsResourceReport.get_running_pods_resources (.ok items)).no_req_pods =
      (items.filter (fun p =>
        decide (∀ c ∈ p.containers, c.cpu_req = "" ∧ c.mem_req = ""))).length ∧
    ∀ (f : Container → Container),
      (∀ c : Container, (f c).cpu_req = c.cpu_req ∧ (f c).mem_req = c.mem_req) →
      (NsResourceReport.get_running_pods_resources
        (.ok (items.map (fun p => { p with containers := p.containers.map f })))).no_req_pods =
      (NsResourceReport.get_running_pods_resources (.ok items)).no_req_pods := by
  obtain ⟨h1, h2, _⟩ := foldl_addPod items ⟨0, 0, 0, 0, 0, 0, none⟩
  refine ⟨by rw [grpr_ok, h1, Nat.zero_add], by rw [grpr_ok, h2, Nat.zero_add], ?_⟩
  intro f hf
  obtain ⟨_, h2f, _⟩ :=
    foldl_addPod (items.map (fun p => { p with containers := p.containers.map f }))
      ⟨0, 0, 0, 0, 0, 0, none⟩
  rw [grpr_ok, grpr_ok, h2, h2f, Nat.zero_add, Nat.zero_add, List.filter_map,
    List.length_map]
  congr 1
  apply List.filter_congr
  intro p _
  apply decide_eq_decide.mpr
  constructor
  · intro hall c hc
    have := hall (f c) (List.mem_map_of_mem f hc)
    exact ⟨((hf c).1).symm.trans this.1, ((hf c).2).symm.trans this.2⟩
  · intro hall c hc
    rcases List.mem_map.mp hc with ⟨y, hy, rfl⟩
    exact ⟨(hf y).1.trans (hall y hy).1, (hf y).2.trans (hall y hy).2⟩

theorem claim_C9_witness :
    (NsResourceReport.get_running_pods_resources
      (.ok (([⟨"Running", "", [⟨"", "", "", ""⟩, ⟨"100m", "", "", ""⟩]⟩] : List Pod).map
        (fun p =>
          { p with containers := p.containers.map (fun c => { c with cpu_lim := "9" }) })))).no_req_pods =
    (NsResourceReport.get_running_pods_resources
      (.ok ([⟨"Running", "", [⟨"", "", "", ""⟩, ⟨"100m", "", "", ""⟩]⟩] : List Pod))).no_req_pods :=
  (claim_C9 [⟨"Running", "", [⟨"", "", "", ""⟩, ⟨"100m", "", "", ""⟩]⟩]).2.2
    (fun c => { c with cpu_lim := "9" }) (fun _ => ⟨rfl, rfl⟩)

/-- Claim C8: `get_top_pods` returns `None` both when the metrics command
fails and when no line of its output parses as a valid pod line; unparseable
lines are skipped, and when at least one valid line exists the result is the
sum of the parsed cpu and memory quantities over the valid lines. -/
theorem claim_C8 :
    NsResourceReport.get_top_pods .failure = none ∧
    ∀ lines : List String,
      NsResourceReport.get_top_pods (.output lines) =
        if NsResourceReport.top_valid_lines lines = [] then none
        else some
          (((NsResourceReport.top_valid_lines lines).map (fun q => convert_cpu_to_m q.1)).sum,
           ((NsResourceReport.top_valid_lines lines).map
              (fun q => NsResourceReport.convert_memory_to_mib q.2)).sum) := by
  refine ⟨rfl, ?_⟩
  intro lines
  show (if (lines.foldl NsResourceReport.topStep (0, 0, 0)).2.2 = 0 then none
        else some ((lines.foldl NsResourceReport.topStep (0, 0, 0)).1,
                   (lines.foldl NsResourceReport.topStep (0, 0, 0)).2.1)) = _
  rw [foldl_topStep]
  by_cases hval : NsResourceReport.top_valid_lines lines = []
  · rw [if_pos (by rw [hval]; rfl), if_pos hval]
  · have hlen : ¬((0 : ℕ) + (NsResourceReport.top_valid_lines lines).length = 0) := by
      rw [Nat.zero_add]
      exact fun hz => hval (List.length_eq_zero.mp hz)
    rw [if_neg hlen, if_neg hval, zero_add, zero_add]

/-- Claim C7: in `generate_resource_report` of `limitpython.py`, a DaemonSet
contributes zero to all four request/limit totals regardless of its replica
count and container resources, and its name is reported as skipped. -/
theorem claim_C7 (pre post : List Workload) (w : Workload) (h : w.kind = "DaemonSet") :
    ((LimitPython.generate_resource_report (pre ++ w :: post)).total_cpu_request_m =
        (LimitPython.generate_resource_report (pre ++ post)).total_cpu_request_m ∧
     (LimitPython.generate_resource_report (pre ++ w :: post)).total_cpu_limit_m =
        (LimitPython.generate_resource_report (pre ++ post)).total_cpu_limit_m ∧
     (LimitPython.generate_resource_report (pre ++ w :: post)).total_mem_request_mb =
        (LimitPython.generate_resource_report (pre ++ post)).total_mem_request_mb ∧
     (LimitPython.generate_resource_report (pre ++ w :: post)).total_mem_limit_mb =
        (LimitPython.generate_resource_report (pre ++ post)).total_mem_limit_mb) ∧
    w.name ∈ (LimitPython.generate_resource_report (pre ++ w :: post)).skipped := by
  have hor : w.kind = "DaemonSet" ∨ w.replicas ≤ 0 := Or.inl h
  obtain ⟨a1, a2, a3, a4, a5⟩ := lp_foldl (pre ++ w :: post) ⟨0, 0, 0, 0, []⟩
  obtain ⟨b1, b2, b3, b4, _⟩ := lp_foldl (pre ++ post) ⟨0, 0, 0, 0, []⟩
  have key : ∀ g : Workload → ℚ,
      (g w = 0) →
      ((pre ++ w :: post).map g).sum = ((pre ++ post).map g).sum := by
    intro g hg
    rw [List.map_append, List.map_cons, List.map_append, List.sum_append, List.sum_append,
      List.sum_cons, hg, zero_add]
  refine ⟨⟨?_, ?_, ?_, ?_⟩, ?_⟩
  · show (LimitPython.generate_resource_report (pre ++ w :: post)).total_cpu_request_m = _
    rw [LimitPython.generate_resource_report, a1,
      key _ (by rw [LimitPython.lpContribCpuReq, if_pos hor]),
      LimitPython.generate_resource_report, b1]
  · rw [LimitPython.generate_resource_report, a2,
      key _ (by rw [LimitPython.lpContribCpuLim, if_pos hor]),
      LimitPython.generate_resource_report, b2]
  · rw [LimitPython.generate_resource_report, a3,
      key _ (by rw [LimitPython.lpContribMemReq, if_pos hor]),
      LimitPython.generate_resource_report, b3]
  · rw [LimitPython.generate_resource_report, a4,
      key _ (by rw [LimitPython.lpContribMemLim, if_pos hor]),
      LimitPython.generate_resource_report, b4]
  · rw [LimitPython.generate_resource_report, a5, List.nil_append]
    unfold LimitPython.lpSkippedNames
    refine List.mem_map.mpr ⟨w, List.mem_filter.mpr ⟨?_, decide_eq_true h⟩, rfl⟩
    exact List.mem_append_right pre (List.mem_cons_self w post)

theorem claim_C7_witness :
    (LimitPython.generate_resource_report
        ([⟨"Deployment", "web", 2, [⟨"250m", "128Mi", "500m", "256Mi"⟩]⟩] ++
          ⟨"DaemonSet", "logger", 5, [⟨"2", "4Gi", "4", "8Gi"⟩]⟩ :: [])).total_cpu_request_m =
      (LimitPython.generate_resource_report
        ([⟨"Deployment", "web", 2, [⟨"250m", "128Mi", "500m", "256Mi"⟩]⟩] ++
          [])).total_cpu_request_m ∧
    "logger" ∈ (LimitPython.generate_resource_report
        ([⟨"Deployment", "web", 2, [⟨"250m", "128Mi", "500m", "256Mi"⟩]⟩] ++
          ⟨"DaemonSet", "logger", 5, [⟨"2", "4Gi", "4", "8Gi"⟩]⟩ :: [])).skipped :=
  ⟨(claim_C7 [⟨"Deployment", "web", 2, [⟨"250m", "128Mi", "500m", "256Mi"⟩]⟩] []
      ⟨"DaemonSet", "logger", 5, [⟨"2", "4Gi", "4", "8Gi"⟩]⟩ rfl).1.1,
   (claim_C7 [⟨"Deployment", "web", 2, [⟨"250m", "128Mi", "500m", "256Mi"⟩]⟩] []
      ⟨"DaemonSet", "logger", 5, [⟨"2", "4Gi", "4", "8Gi"⟩]⟩ rfl).2⟩

/-- Claim C1 counterexample: a pod-data fetch failure whose (stripped)
stderr is empty yields a record with `error` set to the empty string; that
record is kept in `valid_data` (so it participates in the grand-total
summation), is absent from the warnings section, and is rendered as an
ordinary data row — contradicting "every record with error set is excluded
from every cluster grand-total sum while appearing in the warnings
section". -/
theorem claim_C1_counterexample :
    (NsResourceReport.get_running_pods_resources (.failure "")).error = some "" ∧
    NsResourceReport.valid_data
        [("ns1", NsResourceReport.get_running_pods_resources (.failure ""))] =
      [NsResourceReport.get_running_pods_resources (.failure "")] ∧
    NsResourceReport.report_errors
        [("ns1", NsResourceReport.get_running_pods_resources (.failure ""))] = [] ∧
    NsResourceReport.report_rows
        [("ns1", NsResourceReport.get_running_pods_resources (.failure ""))] =
      [NsResourceReport.ReportRow.dataRow "ns1"
        (NsResourceReport.get_running_pods_resources (.failure ""))] := by
  refine ⟨rfl, ?_, ?_, ?_⟩ <;> decide

/-- Claim C1 (amended): a failed fetch produces a record with all numeric
fields zero and `error` set; every record whose error message is non-empty
(Python-truthy) is excluded from `valid_data` — hence from every grand-total
sum — while still appearing in the warnings section and, as an error row, in
the per-namespace listing.  (A failure with empty stderr yields
`error = ''`, which the report treats as no error; see the
counterexample.) -/
theorem claim_C1 :
    (∀ stderrMsg : String,
      (NsResourceReport.get_running_pods_resources (.failure stderrMsg)).pods = 0 ∧
      (NsResourceReport.get_running_pods_resources (.failure stderrMsg)).cpu_req_m = 0 ∧
      (NsResourceReport.get_running_pods_resources (.failure stderrMsg)).cpu_lim_m = 0 ∧
      (NsResourceReport.get_running_pods_resources (.failure stderrMsg)).mem_req_mib = 0 ∧
      (NsResourceReport.get_running_pods_resources (.failure stderrMsg)).mem_lim_mib = 0 ∧
      (NsResourceReport.get_running_pods_resources (.failure stderrMsg)).no_req_pods = 0 ∧
      (NsResourceReport.get_running_pods_resources (.failure stderrMsg)).error.isSome = true) ∧
    (NsResourceReport.get_running_pods_resources .badJson =
      ⟨0, 0, 0, 0, 0, 0, some "blad parsowania JSON"⟩) ∧
    ∀ (ns_data : List (String × NsResourceReport.NsTotals))
      (ns : String) (d : NsResourceReport.NsTotals),
      (ns, d) ∈ ns_data → NsResourceReport.errTruthy d = true →
      d ∉ NsResourceReport.valid_data ns_data ∧
      (ns, d.error.getD "") ∈ NsResourceReport.report_errors ns_data ∧
      NsResourceReport.ReportRow.errRow ns (d.error.getD "") ∈
        NsResourceReport.report_rows ns_data := by
  refine ⟨fun s => ⟨rfl, rfl, rfl, rfl, rfl, rfl, rfl⟩, rfl, ?_⟩
  intro ns_data ns d hmem herr
  refine ⟨?_, ?_, ?_⟩
  · intro hd
    have := (List.mem_filter.mp hd).2
    rw [herr] at this
    exact absurd this (by decide)
  · exact List.mem_filterMap.mpr ⟨(ns, d), hmem, by simp [herr]⟩
  · exact List.mem_map.mpr ⟨(ns, d), hmem, by simp [herr]⟩

theorem claim_C1_witness :
    NsResourceReport.get_running_pods_resources (.failure "forbidden") ∉
      NsResourceReport.valid_data
        [("a", NsResourceReport.get_running_pods_resources (.failure "forbidden"))] ∧
    ("a", (NsResourceReport.get_running_pods_resources (.failure "forbidden")).error.getD "") ∈
      NsResourceReport.report_errors
        [("a", NsResourceReport.get_running_pods_resources (.failure "forbidden"))] ∧
    NsResourceReport.ReportRow.errRow "a"
        ((NsResourceReport.get_running_pods_resources (.failure "forbidden")).error.getD "") ∈
      NsResourceReport.report_rows
        [("a", NsResourceReport.get_running_pods_resources (.failure "forbidden"))] :=
  claim_C1.2.2 _ "a" _ (List.mem_singleton.mpr rfl) (by decide)

/-- Claim C3 counterexample: in `generate_deployment_report` of
`namespacelimitsreq.py`, a Deployment with `spec.replicas = -1` and a
container requesting one cpu core contributes `-1000` millicores — not zero —
to the namespace total, contradicting "for r ≤ 0 the contributed total is
all-zero and the workload is excluded from summation". -/
theorem claim_C3_counterexample :
    ((⟨"Deployment", "app", -1, [{ cpu_req := "1" }]⟩ : Workload).replicas ≤ 0) ∧
    (NamespaceLimitsReq.generate_deployment_report
        [⟨"Deployment", "app", -1, [{ cpu_req := "1" }]⟩]).total_cpu_req_m = -1000 ∧
    ((-1000 : ℚ) ≠ 0) := by
  refine ⟨by decide, by with_unfolding_all decide, by norm_num⟩

/-- Claim C3 (amended): the scaling law holds differently in the two
aggregators.  In `limitpython.py`, a non-DaemonSet workload with replica
count r ≥ 0 contributes exactly the per-replica container sums times r to
every namespace total, a workload with r ≤ 0 contributes zero on all four
fields, and totals are additive over list concatenation; but the script has
no per-workload listing.  In `namespacelimitsreq.py`, every workload is
listed with per-replica sums times r and those same products — negative when
r < 0 — are added to the namespace totals, so workloads with r < 0 are not
excluded from summation. -/
theorem claim_C3 :
    (∀ w : Workload, w.kind ≠ "DaemonSet" → 0 ≤ w.replicas →
      (LimitPython.generate_resource_report [w]).total_cpu_request_m =
          LimitPython.pod_cpu_request_m w.containers * (w.replicas : ℚ) ∧
      (LimitPython.generate_resource_report [w]).total_cpu_limit_m =
          LimitPython.pod_cpu_limit_m w.containers * (w.replicas : ℚ) ∧
      (LimitPython.generate_resource_report [w]).total_mem_request_mb =
          LimitPython.pod_mem_request_mb w.containers * (w.replicas : ℚ) ∧
      (LimitPython.generate_resource_report [w]).total_mem_limit_mb =
          LimitPython.pod_mem_limit_mb w.containers * (w.replicas : ℚ)) ∧
    (∀ w : Workload, w.replicas ≤ 0 →
      (LimitPython.generate_resource_report [w]).total_cpu_request_m = 0 ∧
      (LimitPython.generate_resource_report [w]).total_cpu_limit_m = 0 ∧
      (LimitPython.generate_resource_report [w]).total_mem_request_mb = 0 ∧
      (LimitPython.generate_resource_report [w]).total_mem_limit_mb = 0) ∧
    (∀ xs ys : List Workload,
      (LimitPython.generate_resource_report (xs ++ ys)).total_cpu_request_m =
        (LimitPython.generate_resource_report xs).total_cpu_request_m +
          (LimitPython.generate_resource_report ys).total_cpu_request_m ∧
      (LimitPython.generate_resource_report (xs ++ ys)).total_cpu_limit_m =
        (LimitPython.generate_resource_report xs).total_cpu_limit_m +
          (LimitPython.generate_resource_report ys).total_cpu_limit_m ∧
      (LimitPython.generate_resource_report (xs ++ ys)).total_mem_request_mb =
        (LimitPython.generate_resource_report xs).total_mem_request_mb +
          (LimitPython.generate_resource_report ys).total_mem_request_mb ∧
      (LimitPython.generate_resource_report (xs ++ ys)).total_mem_limit_mb =
        (LimitPython.generate_resource_report xs).total_mem_limit_mb +
          (LimitPython.generate_resource_report ys).total_mem_limit_mb) ∧
    (∀ items : List Workload,
      (NamespaceLimitsReq.generate_deployment_report items).report_data =
        items.map NamespaceLimitsReq.nlRowOf ∧
      (NamespaceLimitsReq.generate_deployment_report items).total_cpu_req_m =
        (items.map (fun it =>
          NamespaceLimitsReq.pod_cpu_request_m it.containers * (it.replicas : ℚ))).sum ∧
      (NamespaceLimitsReq.generate_deployment_report items).total_cpu_lim_m =
        (items.map (fun it =>
          NamespaceLimitsReq.pod_cpu_limit_m it.containers * (it.replicas : ℚ))).sum ∧
      (NamespaceLimitsReq.generate_deployment_report items).total_mem_req_mb =
        (items.map (fun it =>
          NamespaceLimitsReq.pod_mem_request_mb it.containers * (it.replicas : ℚ))).sum ∧
      (NamespaceLimitsReq.generate_deployment_report items).total_mem_lim_mb =
        (items.map (fun it =>
          NamespaceLimitsReq.pod_mem_limit_mb it.containers * (it.replicas : ℚ))).sum) := by
  have hsingle : ∀ (w : Workload) (g : Workload → ℚ),
      ([w].map g).sum = g w := by
    intro w g
    simp
  refine ⟨?_, ?_, ?_, ?_⟩
  · intro w hk hr
    obtain ⟨a1, a2, a3, a4, _⟩ := lp_foldl [w] ⟨0, 0, 0, 0, []⟩
    rcases eq_or_lt_of_le hr with heq | hlt
    · have hle : w.replicas ≤ 0 := le_of_eq heq.symm
      have hcond : w.kind = "DaemonSet" ∨ w.replicas ≤ 0 := Or.inr hle
      have hcast : ((w.replicas : ℚ)) = 0 := by
        rw [← heq]
        rfl
      refine ⟨?_, ?_, ?_, ?_⟩
      · rw [LimitPython.generate_resource_report, a1, hsingle,
          LimitPython.lpContribCpuReq, if_pos hcond, hcast, mul_zero, zero_add]
      · rw [LimitPython.generate_resource_report, a2, hsingle,
          LimitPython.lpContribCpuLim, if_pos hcond, hcast, mul_zero, zero_add]
      · rw [LimitPython.generate_resource_report, a3, hsingle,
          LimitPython.lpContribMemReq, if_pos hcond, hcast, mul_zero, zero_add]
      · rw [LimitPython.generate_resource_report, a4, hsingle,
          LimitPython.lpContribMemLim, if_pos hcond, hcast, mul_zero, zero_add]
    · have hcond : ¬(w.kind = "DaemonSet" ∨ w.replicas ≤ 0) := by
        rintro (h | h)
        · exact hk h
        · exact absurd hlt (not_lt.mpr h)
      refine ⟨?_, ?_, ?_, ?_⟩
      · rw [LimitPython.generate_resource_report, a1, hsingle,
          LimitPython.lpContribCpuReq, if_neg hcond, zero_add]
      · rw [LimitPython.generate_resource_report, a2, hsingle,
          LimitPython.lpContribCpuLim, if_neg hcond, zero_add]
      · rw [LimitPython.generate_resource_report, a3, hsingle,
          LimitPython.lpContribMemReq, if_neg hcond, zero_add]
      · rw [LimitPython.generate_resource_report, a4, hsingle,
          LimitPython.lpContribMemLim, if_neg hcond, zero_add]
  · intro w hr
    obtain ⟨a1, a2, a3, a4, _⟩ := lp_foldl [w] ⟨0, 0, 0, 0, []⟩
    have hcond : w.kind = "DaemonSet" ∨ w.replicas ≤ 0 := Or.inr hr
    refine ⟨?_, ?_, ?_, ?_⟩
    · rw [LimitPython.generate_resource_report, a1, hsingle,
        LimitPython.lpContribCpuReq, if_pos hcond, zero_add]
    · rw [LimitPython.generate_resource_report, a2, hsingle,
        LimitPython.lpContribCpuLim, if_pos hcond, zero_add]
    · rw [LimitPython.generate_resource_report, a3, hsingle,
        LimitPython.lpContribMemReq, if_pos hcond, zero_add]
    · rw [LimitPython.generate_resource_report, a4, hsingle,
        LimitPython.lpContribMemLim, if_pos hcond, zero_add]
  · intro xs ys
    obtain ⟨a1, a2, a3, a4, _⟩ := lp_foldl (xs ++ ys) ⟨0, 0, 0, 0, []⟩
    obtain ⟨b1, b2, b3, b4, _⟩ := lp_foldl xs ⟨0, 0, 0, 0, []⟩
    obtain ⟨c1, c2, c3, c4, _⟩ := lp_foldl ys ⟨0, 0, 0, 0, []⟩
    refine ⟨?_, ?_, ?_, ?_⟩
    · rw [LimitPython.generate_resource_report, a1, LimitPython.generate_resource_report, b1,
        LimitPython.generate_resource_report, c1, List.map_append, List.sum_append, zero_add,
        zero_add, zero_add]
    · rw [LimitPython.generate_resource_report, a2, LimitPython.generate_resource_report, b2,
        LimitPython.generate_resource_report, c2, List.map_append, List.sum_append, zero_add,
        zero_add, zero_add]
    · rw [LimitPython.generate_resource_report, a3, LimitPython.generate_resource_report, b3,
        LimitPython.generate_resource_report, c3, List.map_append, List.sum_append, zero_add,
        zero_add, zero_add]
    · rw [LimitPython.generate_resource_report, a4, LimitPython.generate_resource_report, b4,
        LimitPython.generate_resource_report, c4, List.map_append, List.sum_append, zero_add,
        zero_add, zero_add]
  · intro items
    obtain ⟨n1, n2, n3, n4, n5⟩ := nl_foldl items ⟨[], 0, 0, 0, 0, 0⟩
    exact ⟨by rw [NamespaceLimitsReq.generate_deployment_report, n1, List.nil_append],
      by rw [NamespaceLimitsReq.generate_deployment_report, n2, zero_add],
      by rw [NamespaceLimitsReq.generate_deployment_report, n3, zero_add],
      by rw [NamespaceLimitsReq.generate_deployment_report, n4, zero_add],
      by rw [NamespaceLimitsReq.generate_deployment_report, n5, zero_add]⟩

theorem claim_C3_witness :
    (LimitPython.generate_resource_report
        [⟨"Deployment", "web", 3, [{ cpu_req := "100m" }]⟩]).total_cpu_request_m =
      LimitPython.pod_cpu_request_m [{ cpu_req := "100m" }] * (((3 : Int)) : ℚ) ∧
    (LimitPython.generate_resource_report
        [⟨"Deployment", "web", 3, [{ cpu_req := "100m" }]⟩]).total_cpu_limit_m =
      LimitPython.pod_cpu_limit_m [{ cpu_req := "100m" }] * (((3 : Int)) : ℚ) ∧
    (LimitPython.generate_resource_report
        [⟨"Deployment", "web", 3, [{ cpu_req := "100m" }]⟩]).total_mem_request_mb =
      LimitPython.pod_mem_request_mb [{ cpu_req := "100m" }] * (((3 : Int)) : ℚ) ∧
    (LimitPython.generate_resource_report
        [⟨"Deployment", "web", 3, [{ cpu_req := "100m" }]⟩]).total_mem_limit_mb =
      LimitPython.pod_mem_limit_mb [{ cpu_req := "100m" }] * (((3 : Int)) : ℚ) :=
  claim_C3.1 ⟨"Deployment", "web", 3, [{ cpu_req := "100m" }]⟩ (by decide) (by decide)

/-- Claim C4: for every nonnegative decimal numeral n, `convert_memory_to_mib`
of `ns_resource_report.py` maps `"{n}Gi"` to n × 1024, `"{n}Mi"` to n and
`"{n}Ki"` to n / 1024; and `convert_cpu_to_m` maps `"{n}m"` to n millicores
and the bare numeral `"{n}"` to n × 1000. -/
theorem claim_C4 (s : String) (h : IsNumeral s) :
    NsResourceReport.convert_memory_to_mib (s ++ "Gi") = numVal s * 1024 ∧
    NsResourceReport.convert_memory_to_mib (s ++ "Mi") = numVal s ∧
    NsResourceReport.convert_memory_to_mib (s ++ "Ki") = numVal s / 1024 ∧
    convert_cpu_to_m (s ++ "m") = numVal s ∧
    convert_cpu_to_m s = numVal s * 1000 :=
  ⟨(ns_conv_G s h).2,
   ((ns_conv_M s h).2).trans (mul_one _),
   ((ns_conv_K s h).2).trans (mul_one_div _ _),
   cpu_conv_m s h,
   cpu_conv_bare s h⟩

theorem claim_C4_witness :
    IsNumeral "2" ∧
    (NsResourceReport.convert_memory_to_mib ("2" ++ "Gi") = numVal "2" * 1024 ∧
     NsResourceReport.convert_memory_to_mib ("2" ++ "Mi") = numVal "2" ∧
     NsResourceReport.convert_memory_to_mib ("2" ++ "Ki") = numVal "2" / 1024 ∧
     convert_cpu_to_m ("2" ++ "m") = numVal "2" ∧
     convert_cpu_to_m "2" = numVal "2" * 1000) :=
  ⟨by decide, claim_C4 "2" (by decide)⟩

/-- Claim C5 counterexample: in `limitpython.py` the decimal suffix `T` is
not an alias of `Ti`: `"1T"` parses to 0 (the fallback rewrites only
`G`/`M`/`K`, so the string falls through to a failing bare-number parse)
while `"1Ti"` parses to 1048576 MiB. -/
theorem claim_C5_counterexample :
    LimitPython.convert_memory_to_mib "1T" = 0 ∧
    LimitPython.convert_memory_to_mib "1Ti" = 1048576 ∧
    ((0 : ℚ) ≠ 1048576) := by
  refine ⟨by with_unfolding_all decide, ?_, by norm_num⟩
  have h := lp_conv_Ti "1" (by decide)
  rw [show ("1" ++ "Ti") = "1Ti" from rfl] at h
  rw [h, show numVal "1" = 1 from by with_unfolding_all decide]
  norm_num

/-- Claim C5 (amended): for every nonnegative decimal numeral n, the decimal
suffixes are exact aliases of the binary ones (`K` of `Ki`, `M` of `Mi`,
`G` of `Gi`, `T` of `Ti`, multipliers 1/1024, 1, 1024, 1024²) in the
`replace('i','')`-based parser variants (`ns_resource_report.py`,
`node_auditor.py`, `namespacelimitsreq.py`); in `limitpython.py` the aliases
hold for `K`, `M` and `G` only, while `"{n}T"` parses to 0 and `"{n}Ti"` to
n × 1024². -/
theorem claim_C5 (s : String) (h : IsNumeral s) :
    (NsResourceReport.convert_memory_to_mib (s ++ "K") =
        NsResourceReport.convert_memory_to_mib (s ++ "Ki") ∧
     NsResourceReport.convert_memory_to_mib (s ++ "M") =
        NsResourceReport.convert_memory_to_mib (s ++ "Mi") ∧
     NsResourceReport.convert_memory_to_mib (s ++ "G") =
        NsResourceReport.convert_memory_to_mib (s ++ "Gi") ∧
     NsResourceReport.convert_memory_to_mib (s ++ "T") =
        NsResourceReport.convert_memory_to_mib (s ++ "Ti")) ∧
    (NamespaceLimitsReq.convert_memory_to_mib (s ++ "K") =
        NamespaceLimitsReq.convert_memory_to_mib (s ++ "Ki") ∧
     NamespaceLimitsReq.convert_memory_to_mib (s ++ "M") =
        NamespaceLimitsReq.convert_memory_to_mib (s ++ "Mi") ∧
     NamespaceLimitsReq.convert_memory_to_mib (s ++ "G") =
        NamespaceLimitsReq.convert_memory_to_mib (s ++ "Gi") ∧
     NamespaceLimitsReq.convert_memory_to_mib (s ++ "T") =
        NamespaceLimitsReq.convert_memory_to_mib (s ++ "Ti")) ∧
    (LimitPython.convert_memory_to_mib (s ++ "K") =
        LimitPython.convert_memory_to_mib (s ++ "Ki") ∧
     LimitPython.convert_memory_to_mib (s ++ "M") =
        LimitPython.convert_memory_to_mib (s ++ "Mi") ∧
     LimitPython.convert_memory_to_mib (s ++ "G") =
        LimitPython.convert_memory_to_mib (s ++ "Gi") ∧
     LimitPython.convert_memory_to_mib (s ++ "T") = 0 ∧
     LimitPython.convert_memory_to_mib (s ++ "Ti") = numVal s * (1024 * 1024)) := by
  have hK := ns_conv_K s h
  have hM := ns_conv_M s h
  have hG := ns_conv_G s h
  have hT := ns_conv_T s h
  have hnaK : NamespaceLimitsReq.convert_memory_to_mib (s ++ "K") =
      NsResourceReport.convert_memory_to_mib (s ++ "K") := by
    apply na_conv_eq_ns
    rw [show (s ++ "K").data = s.data ++ ['K'] from by rw [String.data_append],
      List.filter_append, numeral_filter_i h,
      show List.filter (fun c => decide (c ≠ 'i')) ['K'] = ['K'] from rfl, memLoop8_K]
    rfl
  have hnaKi : NamespaceLimitsReq.convert_memory_to_mib (s ++ "Ki") =
      NsResourceReport.convert_memory_to_mib (s ++ "Ki") := by
    apply na_conv_eq_ns
    rw [show (s ++ "Ki").data = s.data ++ ['K','i'] from by rw [String.data_append],
      List.filter_append, numeral_filter_i h,
      show List.filter (fun c => decide (c ≠ 'i')) ['K','i'] = ['K'] from rfl, memLoop8_K]
    rfl
  have hnaM : NamespaceLimitsReq.convert_memory_to_mib (s ++ "M") =
      NsResourceReport.convert_memory_to_mib (s ++ "M") := by
    apply na_conv_eq_ns
    rw [show (s ++ "M").data = s.data ++ ['M'] from by rw [String.data_append],
      List.filter_append, numeral_filter_i h,
      show List.filter (fun c => decide (c ≠ 'i')) ['M'] = ['M'] from rfl, memLoop8_M]
    rfl
  have hnaMi : NamespaceLimitsReq.convert_memory_to_mib (s ++ "Mi") =
      NsResourceReport.convert_memory_to_mib (s ++ "Mi") := by
    apply na_conv_eq_ns
    rw [show (s ++ "Mi").data = s.data ++ ['M','i'] from by rw [String.data_append],
      List.filter_append, numeral_filter_i h,
      show List.filter (fun c => decide (c ≠ 'i')) ['M','i'] = ['M'] from rfl, memLoop8_M]
    rfl
  have hnaG : NamespaceLimitsReq.convert_memory_to_mib (s ++ "G") =
      NsResourceReport.convert_memory_to_mib (s ++ "G") := by
    apply na_conv_eq_ns
    rw [show (s ++ "G").data = s.data ++ ['G'] from by rw [String.data_append],
      List.filter_append, numeral_filter_i h,
      show List.filter (fun c => decide (c ≠ 'i')) ['G'] = ['G'] from rfl, memLoop8_G]
    rfl
  have hnaGi : NamespaceLimitsReq.convert_memory_to_mib (s ++ "Gi") =
      NsResourceReport.convert_memory_to_mib (s ++ "Gi") := by
    apply na_conv_eq_ns
    rw [show (s ++ "Gi").data = s.data ++ ['G','i'] from by rw [String.data_append],
      List.filter_append, numeral_filter_i h,
      show List.filter (fun c => decide (c ≠ 'i')) ['G','i'] = ['G'] from rfl, memLoop8_G]
    rfl
  have hnaT : NamespaceLimitsReq.convert_memory_to_mib (s ++ "T") =
      NsResourceReport.convert_memory_to_mib (s ++ "T") := by
    apply na_conv_eq_ns
    rw [show (s ++ "T").data = s.data ++ ['T'] from by rw [String.data_append],
      List.filter_append, numeral_filter_i h,
      show List.filter (fun c => decide (c ≠ 'i')) ['T'] = ['T'] from rfl, memLoop8_T]
    rfl
  have hnaTi : NamespaceLimitsReq.convert_memory_to_mib (s ++ "Ti") =
      NsResourceReport.convert_memory_to_mib (s ++ "Ti") := by
    apply na_conv_eq_ns
    rw [show (s ++ "Ti").data = s.data ++ ['T','i'] from by rw [String.data_append],
      List.filter_append, numeral_filter_i h,
      show List.filter (fun c => decide (c ≠ 'i')) ['T','i'] = ['T'] from rfl, memLoop8_T]
    rfl
  refine ⟨⟨hK.1.trans hK.2.symm, hM.1.trans hM.2.symm, hG.1.trans hG.2.symm,
            hT.1.trans hT.2.symm⟩,
          ⟨?_, ?_, ?_, ?_⟩,
          ⟨(lp_conv_K s h).trans (lp_conv_Ki s h).symm,
           (lp_conv_M s h).trans (lp_conv_Mi s h).symm,
           (lp_conv_G s h).trans (lp_conv_Gi s h).symm,
           lp_conv_T s h, lp_conv_Ti s h⟩⟩
  · rw [hnaK, hnaKi, hK.1, hK.2]
  · rw [hnaM, hnaMi, hM.1, hM.2]
  · rw [hnaG, hnaGi, hG.1, hG.2]
  · rw [hnaT, hnaTi, hT.1, hT.2]

theorem claim_C5_witness :
    IsNumeral "3" ∧
    NsResourceReport.convert_memory_to_mib ("3" ++ "G") =
      NsResourceReport.convert_memory_to_mib ("3" ++ "Gi") ∧
    LimitPython.convert_memory_to_mib ("3" ++ "K") =
      LimitPython.convert_memory_to_mib ("3" ++ "Ki") ∧
    LimitPython.convert_memory_to_mib ("3" ++ "T") = 0 :=
  ⟨by decide, (claim_C5 "3" (by decide)).1.2.2.1,
   (claim_C5 "3" (by decide)).2.2.1, (claim_C5 "3" (by decide)).2.2.2.2.2.1⟩

/-- Claim C6 counterexample: the parsers accept a leading minus sign, so
quantities can be negative: `convert_cpu_to_m "-1" = -1000` and
`convert_memory_to_mib "-1Gi" = -1024` — contradicting "for every input
string the produced quantity is non-negative". -/
theorem claim_C6_counterexample :
    convert_cpu_to_m "-1" = -1000 ∧
    NsResourceReport.convert_memory_to_mib "-1Gi" = -1024 ∧
    ((-1000 : ℚ) < 0) := by
  refine ⟨by with_unfolding_all decide, by with_unfolding_all decide, by norm_num⟩

/-- Claim C6 (amended): for every input string that contains no minus sign,
`convert_cpu_to_m` and every `convert_memory_to_mib` variant return a
non-negative value; a string with a leading minus parses to a negative
value (see the counterexample). -/
theorem claim_C6 (s : String) (h : '-' ∉ s.data) :
    0 ≤ convert_cpu_to_m s ∧
    0 ≤ NsResourceReport.convert_memory_to_mib s ∧
    0 ≤ NodeAuditor.convert_memory_to_mib s ∧
    0 ≤ LimitPython.convert_memory_to_mib s := by
  have h8 : ∀ p ∈ NsResourceReport.MEMORY_MULTIPLIERS, (0 : ℚ) ≤ p.2 := by
    intro p hp
    fin_cases hp <;> norm_num
  have h4 : ∀ p ∈ LimitPython.MEMORY_MULTIPLIERS, (0 : ℚ) ≤ p.2 := by
    intro p hp
    fin_cases hp <;> norm_num
  refine ⟨?_, ?_, ?_, ?_⟩
  · unfold convert_cpu_to_m
    split
    · exact le_refl 0
    · split
      · refine pyFloatL_nonneg ?_
        intro hmem
        rw [List.dropLast_eq_take] at hmem
        exact h (List.take_subset _ _ hmem)
      · exact mul_nonneg (pyFloatL_nonneg h) (by norm_num)
  · unfold NsResourceReport.convert_memory_to_mib
    split
    · exact le_refl 0
    · have hfm : '-' ∉ s.data.filter (fun c => decide (c ≠ 'i')) :=
        fun hmem => h (List.mem_of_mem_filter hmem)
      cases hm : memLoop (s.data.filter (fun c => decide (c ≠ 'i')))
          NsResourceReport.MEMORY_MULTIPLIERS with
      | some v =>
        exact memLoop_nonneg hfm h8 hm
      | none =>
        exact div_nonneg (pyFloatL_nonneg h) (by norm_num)
  · unfold NodeAuditor.convert_memory_to_mib
    rw [NodeAuditor.MEMORY_MULTIPLIERS]
    split
    · exact le_refl 0
    · have hfm : '-' ∉ s.data.filter (fun c => decide (c ≠ 'i')) :=
        fun hmem => h (List.mem_of_mem_filter hmem)
      cases hm : memLoop (s.data.filter (fun c => decide (c ≠ 'i')))
          NsResourceReport.MEMORY_MULTIPLIERS with
      | some v =>
        exact memLoop_nonneg hfm h8 hm
      | none =>
        exact pyFloatL_nonneg h
  · unfold LimitPython.convert_memory_to_mib
    split
    · exact le_refl 0
    · have hl2 : '-' ∉ (if endsWithL s.data ['G'] then LimitPython.replaceChar s.data 'G' ['G','i']
          else if endsWithL s.data ['M'] then LimitPython.replaceChar s.data 'M' ['M','i']
          else if endsWithL s.data ['K'] then LimitPython.replaceChar s.data 'K' ['K','i']
          else s.data) := by
        split
        · intro hmem
          rcases mem_replaceChar hmem with hmem | hmem
          · exact h hmem
          · exact absurd hmem (by decide)
        · split
          · intro hmem
            rcases mem_replaceChar hmem with hmem | hmem
            · exact h hmem
            · exact absurd hmem (by decide)
          · split
            · intro hmem
              rcases mem_replaceChar hmem with hmem | hmem
              · exact h hmem
              · exact absurd hmem (by decide)
            · exact h
      cases hm : memLoop s.data LimitPython.MEMORY_MULTIPLIERS with
      | some v =>
        exact memLoop_nonneg h h4 hm
      | none =>
        dsimp only
        cases hm2 : memLoop (if endsWithL s.data ['G'] then LimitPython.replaceChar s.data 'G' ['G','i']
            else if endsWithL s.data ['M'] then LimitPython.replaceChar s.data 'M' ['M','i']
            else if endsWithL s.data ['K'] then LimitPython.replaceChar s.data 'K' ['K','i']
            else s.data) LimitPython.MEMORY_MULTIPLIERS with
        | some v =>
          exact memLoop_nonneg hl2 h4 hm2
        | none =>
          exact pyFloatL_nonneg hl2

theorem claim_C6_witness :
    ('-' ∉ "500m".data) ∧
    (0 ≤ convert_cpu_to_m "500m" ∧
     0 ≤ NsResourceReport.convert_memory_to_mib "500m" ∧
     0 ≤ NodeAuditor.convert_memory_to_mib "500m" ∧
     0 ≤ LimitPython.convert_memory_to_mib "500m") :=
  ⟨by decide, claim_C6 "500m" (by decide)⟩

/-- Claim C2: for every node list and pod list, each row of the node report
carries as `requested_mib` exactly the sum of the parsed container memory
requests of the pods whose phase is Running or Pending and whose (non-empty)
`spec.nodeName` equals the row's node name — pods with no assigned node
contribute nothing; the free reserve equals `allocatable - requested`, as-is
(never clamped); and the usage percentage is `requested/allocatable × 100`
when allocatable is positive and `0` when allocatable is `0`. -/
theorem claim_C2 (nodes : List NodeAuditor.NodeInfo) (pods : List Pod) :
    ∀ row ∈ NodeAuditor.generate_full_node_report nodes pods,
      row.requested_mib = NodeAuditor.committedSum row.node_name pods ∧
      row.free_reserve_mib = row.allocatable_mib - row.requested_mib ∧
      (0 < row.allocatable_mib →
        row.usage_percent = row.requested_mib / row.allocatable_mib * 100) ∧
      (row.allocatable_mib = 0 → row.usage_percent = 0) := by
  intro row hrow
  simp only [NodeAuditor.generate_full_node_report] at hrow
  rcases List.mem_map.mp hrow with ⟨p, hp, hpe⟩
  obtain ⟨k, v⟩ := p
  rcases get_pods_requests_mem hp with ⟨v₀, hv₀, _, _, hreq⟩
  have hz : v₀.requested_mib = 0 := get_nodes_data_requested_zero hv₀
  subst hpe
  refine ⟨?_, rfl, ?_, ?_⟩
  · show v.requested_mib = NodeAuditor.committedSum k pods
    rw [hreq, hz, zero_add]
  · intro hpos
    show (if v.allocatable_mib > (0 : ℚ) then v.requested_mib / v.allocatable_mib * 100 else 0) =
      v.requested_mib / v.allocatable_mib * 100
    rw [if_pos hpos]
  · intro hzero
    show (if v.allocatable_mib > (0 : ℚ) then v.requested_mib / v.allocatable_mib * 100 else 0) = 0
    have : ¬(v.allocatable_mib > (0 : ℚ)) := by
      show ¬((0 : ℚ) < v.allocatable_mib)
      rw [show v.allocatable_mib = (0 : ℚ) from hzero]
      exact lt_irrefl 0
    rw [if_neg this]

theorem claim_C2_witness :
    (⟨"n1", 8, 2, 6, 25⟩ : NodeAuditor.NodeRow).requested_mib =
      NodeAuditor.committedSum "n1"
        [⟨"Running", "n1", [{ mem_req := "2Mi" }]⟩, ⟨"Pending", "", [{ mem_req := "1Mi" }]⟩] ∧
    (⟨"n1", 8, 2, 6, 25⟩ : NodeAuditor.NodeRow).free_reserve_mib =
      (⟨"n1", 8, 2, 6, 25⟩ : NodeAuditor.NodeRow).allocatable_mib -
        (⟨"n1", 8, 2, 6, 25⟩ : NodeAuditor.NodeRow).requested_mib ∧
    (0 < (⟨"n1", 8, 2, 6, 25⟩ : NodeAuditor.NodeRow).allocatable_mib →
      (⟨"n1", 8, 2, 6, 25⟩ : NodeAuditor.NodeRow).usage_percent =
        (⟨"n1", 8, 2, 6, 25⟩ : NodeAuditor.NodeRow).requested_mib /
          (⟨"n1", 8, 2, 6, 25⟩ : NodeAuditor.NodeRow).allocatable_mib * 100) ∧
    ((⟨"n1", 8, 2, 6, 25⟩ : NodeAuditor.NodeRow).allocatable_mib = 0 →
      (⟨"n1", 8, 2, 6, 25⟩ : NodeAuditor.NodeRow).usage_percent = 0) :=
  claim_C2 [⟨"n1", "10Mi", "8Mi"⟩]
    [⟨"Running", "n1", [{ mem_req := "2Mi" }]⟩, ⟨"Pending", "", [{ mem_req := "1Mi" }]⟩]
    ⟨"n1", 8, 2, 6, 25⟩ (by with_unfolding_all decide)

/-- Claim C10: in `get_top_pods`, every output line with at least three
whitespace-separated fields counts as a valid parsed line even when its cpu
and memory fields are unparseable (each then contributing 0), so a non-empty
snapshot consisting only of such lines yields `Some (0, 0)` — an
actual-usage of exactly zero — rather than `None` ("unavailable"). -/
theorem claim_C10 (lines : List String) (hne : lines ≠ [])
    (h : ∀ line ∈ lines, ∃ nm cpu mem rest, pySplitWs line.data = nm :: cpu :: mem :: rest ∧
      convert_cpu_to_m (String.mk cpu) = 0 ∧
      NsResourceReport.convert_memory_to_mib (String.mk mem) = 0) :
    NsResourceReport.get_top_pods (.output lines) = some (0, 0) := by
  show (if (lines.foldl NsResourceReport.topStep (0, 0, 0)).2.2 = 0 then none
        else some ((lines.foldl NsResourceReport.topStep (0, 0, 0)).1,
                   (lines.foldl NsResourceReport.topStep (0, 0, 0)).2.1)) = some (0, 0)
  rw [foldl_topStep]
  have hvalid_ne : NsResourceReport.top_valid_lines lines ≠ [] := by
    obtain ⟨line, ls, rfl⟩ : ∃ line ls, lines = line :: ls := by
      cases lines with
      | nil => exact absurd rfl hne
      | cons a as => exact ⟨a, as, rfl⟩
    rcases h line (List.mem_cons_self line ls) with ⟨nm, cpu, mem, rest, hsp, _, _⟩
    rw [top_valid_lines_cons_valid hsp]
    exact List.cons_ne_nil _ _
  have hcpu0 : ((NsResourceReport.top_valid_lines lines).map
      (fun q => convert_cpu_to_m q.1)).sum = 0 := by
    apply List.sum_eq_zero
    intro x hx
    rcases List.mem_map.mp hx with ⟨q, hq, rfl⟩
    rcases List.mem_filterMap.mp hq with ⟨line, hline, hfq⟩
    rcases h line hline with ⟨nm, cpu, mem, rest, hsp, hc0, _⟩
    rw [hsp] at hfq
    simp only [Option.some.injEq] at hfq
    rw [← hfq]
    exact hc0
  have hmem0 : ((NsResourceReport.top_valid_lines lines).map
      (fun q => NsResourceReport.convert_memory_to_mib q.2)).sum = 0 := by
    apply List.sum_eq_zero
    intro x hx
    rcases List.mem_map.mp hx with ⟨q, hq, rfl⟩
    rcases List.mem_filterMap.mp hq with ⟨line, hline, hfq⟩
    rcases h line hline with ⟨nm, cpu, mem, rest, hsp, _, hm0⟩
    rw [hsp] at hfq
    simp only [Option.some.injEq] at hfq
    rw [← hfq]
    exact hm0
  rw [if_neg (by
    rw [Nat.zero_add]
    exact fun hz => hvalid_ne (List.length_eq_zero.mp hz))]
  rw [hcpu0, hmem0, zero_add, zero_add]

theorem claim_C10_witness :
    NsResourceReport.get_top_pods (.output ["pod-a lots xMi"]) = some (0, 0) := by
  refine claim_C10 ["pod-a lots xMi"] (by decide) ?_
  intro line hl
  rw [List.mem_singleton.mp hl]
  exact ⟨['p','o','d','-','a'], ['l','o','t','s'], ['x','M','i'], [],
    by decide, by with_unfolding_all decide, by with_unfolding_all decide⟩

